import Mathlib

/-!
# TinyORM: query builder and connection `run` pipeline

A shallow embedding of `src/src/orm/query/querybuilder.cpp`,
`src/src/orm/query/joinclause.cpp`, the `run` / `handleQueryException` /
`tryAgainIfCausedByLostConnection` templates of
`src/include/orm/databaseconnection.hpp`, and `MySqlConnection::pingDatabase` of
`src/src/orm/mysqlconnection.cpp`.

Conventions of the embedding

* `QString` is `String`; `QString::toLower` is `toLower` below (ASCII case folding).
* `QVector<T>` / `QStringList` are `List`.
* A C++ member function that mutates `*this` and may throw becomes a function
  `Builder → Outcome`: `Outcome.returned b` is a normal return with the builder left in
  state `b`, `Outcome.threw e b` is exception `e` leaving the call with the builder in state `b`.
* `querybuilder.hpp` is not among the embedded sources, so the member types it declares are
  reconstructed from the way the `.cpp` uses them and from the data model of the spec.
* A member function that checks its argument with `Q_ASSERT` takes the kind of build as a
  parameter and returns an `Asserted`; `int` arithmetic is 32-bit two's complement.
* The grammar's compile functions and the connection's `select` are parameters of the
  members that call them.
-/

namespace Orm

/-! ## Values -/

/-- Modelled from the spec: `QVariant` as far as the builder looks at it. The constructor
`expression v` is a variant that holds a `Query::Expression` wrapping `v`
(what `DatabaseConnection::raw(v)` produces, stored with `QVariant::fromValue`). -/
inductive QVariant where
  | invalid
  | int (i : Int)
  | string (s : String)
  | bool (b : Bool)
  | expression (value : QVariant)
deriving DecidableEq, Repr

/-- The test `binding.canConvert<Expression>()` of `cleanBindings`. -/
def QVariant.canConvertExpression : QVariant → Bool
  | .expression _ => true
  | _ => false

/-- `Query::Expression`: a raw SQL fragment, built from a `QVariant`
(`DatabaseConnection::raw`, databaseconnection.hpp:324-328). -/
structure Expression where
  value : QVariant
deriving DecidableEq, Repr

/-- `QString::toLower`, on the ASCII letters. -/
def toLower (s : String) : String := String.mk (s.data.map Char.toLower)

/-- Modelled from the spec: the error taxonomy of section 7; the classes themselves live in
`orm/exceptions/*.hpp`, which is not among the embedded sources. The builder code only ever
throws `RuntimeError`; `run` only ever catches `QueryError`. -/
inductive Exception where
  | InvalidArgumentError (msg : String)
  | QueryError (msg : String)
  | LogicError (msg : String)
  | RuntimeError (msg : String)
deriving DecidableEq, Repr

/-- Whether an exception is of the invalid-argument kind. -/
def Exception.isInvalidArgument : Exception → Bool
  | .InvalidArgumentError _ => true
  | _ => false

/-- Whether an exception is a `QueryError`, the only kind `run` catches. -/
def Exception.isQueryError : Exception → Bool
  | .QueryError _ => true
  | _ => false

/-! ## Binding store -/

/-- Modelled from the spec: `enum struct BindingType`, by its underlying integer. The eight
enumerators, in declaration order, are the categories the spec lists
(select, from, join, where, groupBy, having, order, union); any other integer is a value
the enum type can hold (through a cast) that names no category. -/
abbrev BindingType := Int

namespace BindingType

def SELECT : BindingType := 0
def FROM : BindingType := 1
def JOIN : BindingType := 2
def WHERE : BindingType := 3
def GROUPBY : BindingType := 4
def HAVING : BindingType := 5
def ORDER : BindingType := 6
def UNION : BindingType := 7

/-- The enumerators in declaration order. -/
def all : List BindingType := [SELECT, FROM, JOIN, WHERE, GROUPBY, HAVING, ORDER, UNION]

end BindingType

/-- Modelled from the spec: `BindingsMap = QMap<BindingType, QVector<QVariant>>`, a `QMap`
being the list of its entries in ascending key order. -/
abbrev BindingsMap := List (BindingType × List QVariant)

namespace BindingsMap

/-- `QMap::keys`. -/
def keys (m : BindingsMap) : List BindingType := m.map Prod.fst

/-- `QMap::contains`. -/
def contains (m : BindingsMap) (t : BindingType) : Bool := m.any (fun kv => kv.1 == t)

/-- `QMap::value(key)` / `find(key).value()`: the bucket stored under `t`
(a default-constructed, empty vector when the key is absent). -/
def value : BindingsMap → BindingType → List QVariant
  | [], _ => []
  | (k, v) :: m, t => if k = t then v else value m t

/-- `QMap::insert`: replaces the value of an existing key, otherwise inserts the entry at its
place in key order. -/
def insert : BindingsMap → BindingType → List QVariant → BindingsMap
  | [], t, v => [(t, v)]
  | (k, w) :: m, t, v =>
    if t < k then (t, v) :: (k, w) :: m
    else if k = t then (k, v) :: m
    else (k, w) :: insert m t v

/-- The effect of `m[t].append(...)` / `std::back_inserter(m[t])`: `operator[]` finds the
bucket (default-inserting it when absent) and the values are appended to it. -/
def appendTo (m : BindingsMap) (t : BindingType) (vs : List QVariant) : BindingsMap :=
  insert m t (value m t ++ vs)

/-- The map every `Builder` is constructed with: the eight categories, all empty. -/
def initial : BindingsMap := BindingType.all.map (fun t => (t, []))

/-- The map holds exactly the eight buckets created at construction. -/
def Complete (m : BindingsMap) : Prop := keys m = BindingType.all

instance (m : BindingsMap) : Decidable (Complete m) := by
  unfold Complete; infer_instance

end BindingsMap

/-! ## AST nodes -/

/-- Modelled from the spec: `enum struct WhereType`, the node kinds of the data model
(basic/column/in/not-in/null/not-null/nested) under the names the `.cpp` uses. -/
inductive WhereType where
  | BASIC | NESTED | COLUMN | IN_ | NOT_IN | NULL_ | NOT_NULL
deriving DecidableEq, Repr

/-- Modelled from the spec: `enum struct HavingType`; the `.cpp` uses `BASIC` only. -/
inductive HavingType where
  | BASIC
deriving DecidableEq, Repr

/-- Modelled from the spec: `struct WhereConditionItem`, the element type of `m_wheres`.
The member order is the one the initialisers of the `.cpp` force
(`{column, value, comparison, condition, type}` positionally, then the designated
`.nestedQuery`, `.values`, `.columnTwo`). A member an initialiser leaves out takes its
in-class default, written out at each use below: an invalid `QVariant`, comparison `"="`,
no nested query, no values, an empty second column. `β` is the builder type a nested
node owns. -/
structure WhereConditionItem (β : Type) where
  column : String
  value : QVariant
  comparison : String
  condition : String
  type : WhereType
  nestedQuery : Option β
  values : List QVariant
  columnTwo : String

/-- Modelled from the spec: `struct HavingConditionItem`, the element type of `m_havings`
(`{column, value, comparison, condition, HavingType::BASIC}` in `Builder::having`). -/
structure HavingConditionItem where
  column : String
  value : QVariant
  comparison : String
  condition : String
  type : HavingType
deriving DecidableEq, Repr

/-- Modelled from the spec: `struct OrderByItem`, the element type of `m_orders`
(`{column, directionLower}` in `Builder::orderBy`). -/
structure OrderByItem where
  column : String
  direction : String
deriving DecidableEq, Repr

/-- Modelled from the spec: `struct WhereItem`, the element of the vector overload of `where`
(members read by `addArrayOfWheres`). -/
structure WhereItem where
  column : String
  value : QVariant
  comparison : String
  condition : String
deriving DecidableEq, Repr

/-- Modelled from the spec: `struct WhereColumnItem`
(members read by `addArrayOfWheres`). -/
structure WhereColumnItem where
  first : String
  second : String
  comparison : String
  condition : String
deriving DecidableEq, Repr

/-- Modelled from the spec: the `m_from` member, a `std::variant` that is unset, a table name,
or an `Expression` (`setFrom`, `from`, `std::get<QString>(m_from)`). -/
inductive FromClause where
  | monostate
  | table (name : String)
  | expression (e : Expression)
deriving DecidableEq, Repr

/-- Modelled from the spec: the `m_distinct` member (`distinct()` stores `true`,
`distinct(columns)` stores the list). -/
inductive DistinctClause where
  | flag (b : Bool)
  | columns (cs : List String)
deriving DecidableEq, Repr

/-- Modelled from the spec: the `m_lock` member (`lock(bool)`, `lock(QString)`). -/
inductive LockClause where
  | monostate
  | flag (b : Bool)
  | text (s : String)
deriving DecidableEq, Repr

/-- What the builder reads through its `m_connection` reference: the database name
(`getConnection().getDatabaseName()`). -/
structure ConnectionRef where
  databaseName : String
deriving DecidableEq, Repr

/-- What the builder reads through its `m_grammar` reference as data: the grammar's extra
operators (`m_grammar.getOperators()`). The compile functions are passed where they are used. -/
structure GrammarRef where
  getOperators : List String
deriving DecidableEq, Repr

/-- The members a `JoinClause` adds to the `Builder` it derives from
(joinclause.cpp:11-15). -/
structure JoinClause (β : Type) where
  toBuilder : β
  m_type : String
  m_table : FromClause

/-- The data members of `Builder`, over the types of its WHERE nodes and joins. -/
structure BuilderCore (W J : Type) where
  m_connection : ConnectionRef
  m_grammar : GrammarRef
  m_operators : List String
  m_bindings : BindingsMap
  m_distinct : DistinctClause
  m_columns : List String
  m_from : FromClause
  m_joins : List J
  m_wheres : List W
  m_groups : List String
  m_havings : List HavingConditionItem
  m_orders : List OrderByItem
  m_limit : Int
  m_offset : Int
  m_lock : LockClause

/-- The class `Orm::Query::Builder`: the query AST plus the binding store. A NESTED where node
owns a child `Builder`, and every join is a `Builder` of its own. -/
inductive Builder where
  | mk (core : BuilderCore (WhereConditionItem Builder) (JoinClause Builder))

/-- The element type of `m_wheres`. -/
abbrev WhereNode := WhereConditionItem Builder

/-- The element type of `m_joins`. -/
abbrev Join := JoinClause Builder

/-- The result of a member function that returns `*this` or throws: the builder it leaves
behind, and the exception when it threw. -/
inductive Outcome where
  | returned (b : Builder)
  | threw (e : Exception) (b : Builder)

namespace Outcome

/-- The builder state after the call, whether it returned or threw. -/
def state : Outcome → Builder
  | returned b => b
  | threw _ b => b

/-- The exception the call threw, if any. -/
def error : Outcome → Option Exception
  | returned _ => none
  | threw e _ => some e

/-- Sequencing `a.f().g()`: `g` runs on what `f` returned; an exception of `f` propagates. -/
def andThen (o : Outcome) (f : Builder → Outcome) : Outcome :=
  match o with
  | returned b => f b
  | threw e b => threw e b

end Outcome

namespace Builder

/-- The data members of a builder. -/
def core : Builder → BuilderCore WhereNode Join
  | mk c => c

def m_connection (b : Builder) : ConnectionRef := b.core.m_connection
def m_grammar (b : Builder) : GrammarRef := b.core.m_grammar
def m_operators (b : Builder) : List String := b.core.m_operators
def m_bindings (b : Builder) : BindingsMap := b.core.m_bindings
def m_distinct (b : Builder) : DistinctClause := b.core.m_distinct
def m_columns (b : Builder) : List String := b.core.m_columns
def m_from (b : Builder) : FromClause := b.core.m_from
def m_joins (b : Builder) : List Join := b.core.m_joins
def m_wheres (b : Builder) : List WhereNode := b.core.m_wheres
def m_groups (b : Builder) : List String := b.core.m_groups
def m_havings (b : Builder) : List HavingConditionItem := b.core.m_havings
def m_orders (b : Builder) : List OrderByItem := b.core.m_orders
def m_limit (b : Builder) : Int := b.core.m_limit
def m_offset (b : Builder) : Int := b.core.m_offset
def m_lock (b : Builder) : LockClause := b.core.m_lock

/-- `getRawBindings()`: the binding store itself. -/
def getRawBindings (b : Builder) : BindingsMap := b.core.m_bindings

/-- `Builder::Builder(connection, grammar)` (querybuilder.cpp:13-16): the references are
stored, every other member takes its in-class initialiser. Modelled from the spec, the
header `querybuilder.hpp` not being among the embedded sources: the eight empty buckets
created at construction, an empty AST, limit and offset unset (encoded as `-1`), no lock.
`operators` is the constant `m_operators` list of the header. -/
def new (connection : ConnectionRef) (grammar : GrammarRef) (operators : List String) :
    Builder :=
  mk { m_connection := connection
       m_grammar := grammar
       m_operators := operators
       m_bindings := BindingsMap.initial
       m_distinct := DistinctClause.flag false
       m_columns := []
       m_from := FromClause.monostate
       m_joins := []
       m_wheres := []
       m_groups := []
       m_havings := []
       m_orders := []
       m_limit := -1
       m_offset := -1
       m_lock := LockClause.monostate }

/-- `Builder::getBindings` (querybuilder.cpp:588-600): every bucket in map order, every
binding of a bucket appended in turn. -/
def getBindings (b : Builder) : List QVariant :=
  b.m_bindings.foldl
    (fun flattenBindings bindings =>
      bindings.2.foldl (fun acc binding => acc ++ [binding]) flattenBindings)
    []

/-- `Builder::newQuery` (querybuilder.cpp:603-606). -/
def newQuery (b : Builder) : Builder :=
  Builder.new b.m_connection b.m_grammar b.m_operators

/-- `setFrom`, the setter `forNestedWhere` uses. -/
def setFrom (b : Builder) (f : FromClause) : Builder :=
  mk { b.core with m_from := f }

/-- `Builder::forNestedWhere` (querybuilder.cpp:608-616). -/
def forNestedWhere (b : Builder) : Builder :=
  (b.newQuery).setFrom b.m_from

/-- `Builder::invalidOperator` (querybuilder.cpp:642-648). -/
def invalidOperator (b : Builder) (comparison : String) : Bool :=
  let comparison_ := toLower comparison
  !b.m_operators.contains comparison_ && !b.m_grammar.getOperators.contains comparison_

/-- `Builder::addBinding(const QVariant &, BindingType)` (querybuilder.cpp:650-660). -/
def addBinding (b : Builder) (binding : QVariant) (type : BindingType) : Outcome :=
  if !b.m_bindings.contains type then
    Outcome.threw (Exception.RuntimeError ("Invalid binding type: " ++ toString type)) b
  else
    Outcome.returned (mk { b.core with m_bindings := b.m_bindings.appendTo type [binding] })

/-- `Builder::addBinding(const QVector<QVariant> &, BindingType)` and its rvalue overload
(querybuilder.cpp:662-684). -/
def addBindings (b : Builder) (bindings : List QVariant) (type : BindingType) : Outcome :=
  if !b.m_bindings.contains type then
    Outcome.threw (Exception.RuntimeError ("Invalid binding type: " ++ toString type)) b
  else
    Outcome.returned (mk { b.core with m_bindings := b.m_bindings.appendTo type bindings })

/-- `Builder::cleanBindings` (querybuilder.cpp:687-699). -/
def cleanBindings (bindings : List QVariant) : List QVariant :=
  bindings.foldl
    (fun cleanedBindings binding =>
      if !binding.canConvertExpression then cleanedBindings ++ [binding]
      else cleanedBindings)
    []

/-- `m_wheres.append(item)`. -/
def appendWhere (b : Builder) (item : WhereNode) : Builder :=
  mk { b.core with m_wheres := b.m_wheres ++ [item] }

/-- `Builder::where(column, comparison, value, condition)` (querybuilder.cpp:246-257).
The value `invalidOperator` returns is not used by the source. -/
def where_ (b : Builder) (column comparison : String) (value : QVariant)
    (condition : String) : Outcome :=
  let _unused := b.invalidOperator comparison
  let b1 := b.appendWhere
    { column := column, value := value, comparison := comparison, condition := condition,
      type := WhereType.BASIC, nestedQuery := none, values := [], columnTwo := "" }
  b1.addBinding value BindingType.WHERE

/-- `Builder::orWhere(column, comparison, value)` (querybuilder.cpp:259-263). -/
def orWhere (b : Builder) (column comparison : String) (value : QVariant) : Outcome :=
  b.where_ column comparison value "or"

/-- `Builder::whereEq` (querybuilder.cpp:265-269). -/
def whereEq (b : Builder) (column : String) (value : QVariant) (condition : String) :
    Outcome :=
  b.where_ column "=" value condition

/-- `Builder::orWhereEq` (querybuilder.cpp:271-274). -/
def orWhereEq (b : Builder) (column : String) (value : QVariant) : Outcome :=
  b.where_ column "=" value "or"

/-- `Builder::addNestedWhereQuery` (querybuilder.cpp:624-640). -/
def addNestedWhereQuery (b : Builder) (query : Builder) (condition : String) : Outcome :=
  if !(query.m_wheres.length > 0) then
    Outcome.returned b
  else
    let b1 := b.appendWhere
      { column := "", value := QVariant.invalid, comparison := "=", condition := condition,
        type := WhereType.NESTED, nestedQuery := some query, values := [], columnTwo := "" }
    let whereBindings := query.getRawBindings.value BindingType.WHERE
    if whereBindings.length > 0 then
      b1.addBindings whereBindings BindingType.WHERE
    else
      Outcome.returned b1

/-- `Builder::where(callback, condition)` (querybuilder.cpp:276-285). The callback receives the
child builder by reference; an exception of the callback leaves `where` with the parent
as it was. -/
def where_callback (b : Builder) (callback : Builder → Outcome) (condition : String) :
    Outcome :=
  let query := b.forNestedWhere
  match callback query with
  | Outcome.threw e _ => Outcome.threw e b
  | Outcome.returned query1 => b.addNestedWhereQuery query1 condition

/-- `Builder::orWhere(callback)` (querybuilder.cpp:287-290). -/
def orWhere_callback (b : Builder) (callback : Builder → Outcome) : Outcome :=
  b.where_callback callback "or"

/-- `Builder::whereColumn(first, comparison, second, condition)`
(querybuilder.cpp:317-327). -/
def whereColumn (b : Builder) (first comparison second condition : String) : Outcome :=
  let _unused := b.invalidOperator comparison
  Outcome.returned (b.appendWhere
    { column := first, value := QVariant.invalid, comparison := comparison,
      condition := condition, type := WhereType.COLUMN, nestedQuery := none, values := [],
      columnTwo := second })

/-- `Builder::orWhereColumn(first, comparison, second)` (querybuilder.cpp:329-333). -/
def orWhereColumn (b : Builder) (first comparison second : String) : Outcome :=
  b.whereColumn first comparison second "or"

/-- `Builder::whereIn(column, values, condition, nope)` (querybuilder.cpp:346-360). -/
def whereIn (b : Builder) (column : String) (values : List QVariant) (condition : String)
    (nope : Bool) : Outcome :=
  let type := if nope then WhereType.NOT_IN else WhereType.IN_
  let b1 := b.appendWhere
    { column := column, value := QVariant.invalid, comparison := "=", condition := condition,
      type := type, nestedQuery := none, values := values, columnTwo := "" }
  b1.addBindings (cleanBindings values) BindingType.WHERE

/-- `Builder::orWhereIn` (querybuilder.cpp:362-365). -/
def orWhereIn (b : Builder) (column : String) (values : List QVariant) : Outcome :=
  b.whereIn column values "or" false

/-- `Builder::whereNotIn` (querybuilder.cpp:367-371). -/
def whereNotIn (b : Builder) (column : String) (values : List QVariant)
    (condition : String) : Outcome :=
  b.whereIn column values condition true

/-- `Builder::orWhereNotIn` (querybuilder.cpp:373-376). -/
def orWhereNotIn (b : Builder) (column : String) (values : List QVariant) : Outcome :=
  b.whereNotIn column values "or"

/-- `Builder::whereNull(columns, condition, nope)` (querybuilder.cpp:399-408). -/
def whereNull (b : Builder) (columns : List String) (condition : String) (nope : Bool) :
    Outcome :=
  let type := if nope then WhereType.NOT_NULL else WhereType.NULL_
  Outcome.returned (columns.foldl
    (fun acc column => acc.appendWhere
      { column := column, value := QVariant.invalid, comparison := "=",
        condition := condition, type := type, nestedQuery := none, values := [],
        columnTwo := "" })
    b)

/-- `Builder::orWhereNull(columns)` (querybuilder.cpp:410-413). -/
def orWhereNull (b : Builder) (columns : List String) : Outcome :=
  b.whereNull columns "or" false

/-- `Builder::whereNotNull(columns, condition)` (querybuilder.cpp:415-418). -/
def whereNotNull (b : Builder) (columns : List String) (condition : String) : Outcome :=
  b.whereNull columns condition true

/-- `Builder::orWhereNotNull(columns)` (querybuilder.cpp:420-423). -/
def orWhereNotNull (b : Builder) (columns : List String) : Outcome :=
  b.whereNotNull columns "or"

/-- `Builder::having(column, comparison, value, condition)` (querybuilder.cpp:440-450). -/
def having (b : Builder) (column comparison : String) (value : QVariant)
    (condition : String) : Outcome :=
  let _unused := b.invalidOperator comparison
  let b1 := mk { b.core with m_havings := b.m_havings ++
    [{ column := column, value := value, comparison := comparison, condition := condition,
       type := HavingType.BASIC }] }
  b1.addBinding value BindingType.HAVING

/-- `Builder::orHaving(column, comparison, value)` (querybuilder.cpp:452-456). -/
def orHaving (b : Builder) (column comparison : String) (value : QVariant) : Outcome :=
  b.having column comparison value "or"

end Builder

/-- A grammar without extra operators, for the examples. -/
def sampleGrammar : GrammarRef := { getOperators := [] }

/-- An operator list for the examples (the header's `m_operators` is a list of this kind). -/
def sampleOperators : List String :=
  ["=", "<", ">", "<=", ">=", "<>", "!=", "like", "not like", "ilike", "&", "|", "<<", ">>"]

/-- A freshly constructed builder, for the examples. -/
def sampleBuilder : Builder :=
  Builder.new { databaseName := "tinyorm_test" } sampleGrammar sampleOperators

/-! ## Sequences of fluent calls

To speak about "every builder obtained from a fresh one by a sequence of calls", a call of the
fluent interface is written down as data and replayed through the member functions above. -/

/-- One call of the fluent WHERE / HAVING interface with its arguments; `where_callback`
carries the calls its callback makes on the child builder. -/
inductive Call where
  | where_ (column comparison : String) (value : QVariant) (condition : String)
  | orWhere (column comparison : String) (value : QVariant)
  | whereColumn (first comparison second condition : String)
  | whereIn (column : String) (values : List QVariant) (condition : String)
  | whereNotIn (column : String) (values : List QVariant) (condition : String)
  | whereNull (columns : List String) (condition : String)
  | whereNotNull (columns : List String) (condition : String)
  | where_callback (body : List Call) (condition : String)
  | having (column comparison : String) (value : QVariant) (condition : String)
  | orHaving (column comparison : String) (value : QVariant)

mutual
/-- Replays one call on a builder. -/
def Call.run : Call → Builder → Outcome
  | Call.where_ column comparison value condition, b =>
    b.where_ column comparison value condition
  | Call.orWhere column comparison value, b => b.orWhere column comparison value
  | Call.whereColumn first comparison second condition, b =>
    b.whereColumn first comparison second condition
  | Call.whereIn column values condition, b => b.whereIn column values condition false
  | Call.whereNotIn column values condition, b => b.whereNotIn column values condition
  | Call.whereNull columns condition, b => b.whereNull columns condition false
  | Call.whereNotNull columns condition, b => b.whereNotNull columns condition
  | Call.where_callback body condition, b =>
    b.where_callback (fun query => Call.runAll body query) condition
  | Call.having column comparison value condition, b =>
    b.having column comparison value condition
  | Call.orHaving column comparison value, b => b.orHaving column comparison value
/-- Replays a sequence of calls, chained as `b.f().g()...`. -/
def Call.runAll : List Call → Builder → Outcome
  | [], b => Outcome.returned b
  | c :: cs, b =>
    match Call.run c b with
    | Outcome.returned b1 => Call.runAll cs b1
    | Outcome.threw e b1 => Outcome.threw e b1
end

mutual
/-- No argument of the call is an `Expression`. -/
def Call.noExpression : Call → Bool
  | Call.where_ _ _ value _ => !value.canConvertExpression
  | Call.orWhere _ _ value => !value.canConvertExpression
  | Call.whereColumn _ _ _ _ => true
  | Call.whereIn _ values _ => values.all (fun v => !v.canConvertExpression)
  | Call.whereNotIn _ values _ => values.all (fun v => !v.canConvertExpression)
  | Call.whereNull _ _ => true
  | Call.whereNotNull _ _ => true
  | Call.where_callback body _ => Call.allNoExpression body
  | Call.having _ _ value _ => !value.canConvertExpression
  | Call.orHaving _ _ value => !value.canConvertExpression
/-- No argument of any call of the sequence is an `Expression`. -/
def Call.allNoExpression : List Call → Bool
  | [] => true
  | c :: cs => Call.noExpression c && Call.allNoExpression cs
end

mutual
/-- The values the WHERE nodes of a builder carry, in node order. -/
def Builder.carriedValues : Builder → List QVariant
  | Builder.mk core => coreCarriedValues core
/-- The values carried by the WHERE list of the data members. -/
def coreCarriedValues : BuilderCore WhereNode Join → List QVariant
  | BuilderCore.mk _ _ _ _ _ _ _ _ wheres _ _ _ _ _ _ => nodesCarriedValues wheres
/-- The values a list of WHERE nodes carries: the concatenation over the nodes. -/
def nodesCarriedValues : List WhereNode → List QVariant
  | [] => []
  | n :: ns => nodeCarriedValues n ++ nodesCarriedValues ns
/-- The values one WHERE node carries: `[value]` for a basic node, the value list of an
in / not-in node, the child's values for a nested node, nothing for the other kinds. -/
def nodeCarriedValues : WhereNode → List QVariant
  | WhereConditionItem.mk _ value _ _ type nestedQuery values _ =>
    match type with
    | WhereType.BASIC => [value]
    | WhereType.IN_ => values
    | WhereType.NOT_IN => values
    | WhereType.NESTED => nestedCarriedValues nestedQuery
    | WhereType.COLUMN => []
    | WhereType.NULL_ => []
    | WhereType.NOT_NULL => []
/-- The values the child of a nested node carries. -/
def nestedCarriedValues : Option Builder → List QVariant
  | none => []
  | some query => Builder.carriedValues query
end

/-- The binding store is complete and its WHERE bucket is what the WHERE nodes carry. -/
def Builder.InSync (b : Builder) : Prop :=
  b.m_bindings.Complete ∧ b.m_bindings.value BindingType.WHERE = b.carriedValues

/-! ## The connection's `run` pipeline (databaseconnection.hpp:373-468)

`run` is a template over the callback's return type `R`. The live Qt connection the callback
and `reconnect` work on is an abstract state `σ`. Calls into code that is not among the
embedded sources (`reconnectIfMissingConnection`, `reconnect`, `logQuery`,
`logQueryForPretend`) and every invocation of the callback are recorded, in order, in the
trace `run` returns. -/

/-- One entry of the trace of a `run` call. -/
inductive RunEvent (R : Type) where
  | reconnectIfMissingConnection
  | callback (queryString : String) (bindings : List QVariant)
  | reconnect
  | logQueryForPretend (queryString : String) (bindings : List QVariant)
  | logQuery (result : R) (elapsed : Option Int)
deriving DecidableEq, Repr

namespace RunEvent

/-- The entry is an invocation of the callback. -/
def isCallback {R : Type} : RunEvent R → Bool
  | callback _ _ => true
  | _ => false

/-- The entry is a call of `reconnect()`. -/
def isReconnect {R : Type} : RunEvent R → Bool
  | reconnect => true
  | _ => false

/-- The entry is a call of `logQuery` or `logQueryForPretend`. -/
def isLog {R : Type} : RunEvent R → Bool
  | logQueryForPretend _ _ => true
  | logQuery _ _ => true
  | _ => false

end RunEvent

/-- The members of `DatabaseConnection` (and of its concerns) that `run` reads or writes:
`backend` is the live Qt connection, `m_pretending` and `m_debugSql` are declared in
databaseconnection.hpp:265 and 302-308, `m_countingElapsed` and `m_elapsedCounter` belong to
`CountsQueries`, and `transactionDepth` is the depth `d` the spec gives
`ManagesTransactions`. -/
structure DatabaseConnection (σ : Type) where
  backend : σ
  m_pretending : Bool
  m_debugSql : Bool
  m_countingElapsed : Bool
  m_elapsedCounter : Int
  transactionDepth : Nat

/-- The member functions `run` calls whose bodies are not among the embedded sources:
what `reconnectIfMissingConnection` and `reconnect` do to the live connection, and the
classifier `causedByLostConnection` of `DetectsLostConnections`. -/
structure ConnectionEnv (σ : Type) where
  reconnectIfMissingConnection : σ → σ
  reconnect : σ → σ
  causedByLostConnection : Exception → Bool

/-- `RunCallback<Return>`: called with the SQL and the bindings, it works on the live
connection and returns a result or throws. -/
abbrev RunCallback (σ R : Type) := σ → String → List QVariant → Except Exception R × σ

/-- What a call of `run` (or of one of its helpers) leaves behind: the value returned or the
exception thrown, the connection afterwards, and the trace of the call. -/
structure RunResult (σ R : Type) where
  result : Except Exception R
  connection : DatabaseConnection σ
  trace : List (RunEvent R)

namespace DatabaseConnection

variable {σ R : Type}

/-- Modelled from the spec: `inTransaction()`, true when the depth is at least one. -/
def inTransaction (c : DatabaseConnection σ) : Bool := decide (0 < c.transactionDepth)

/-- `DatabaseConnection::pretending` (databaseconnection.hpp:351-354). -/
def pretending (c : DatabaseConnection σ) : Bool := c.m_pretending

/-- `DatabaseConnection::shouldCountElapsed` (databaseconnection.hpp:465-468). -/
def shouldCountElapsed (c : DatabaseConnection σ) : Bool :=
  !c.m_pretending && (c.m_debugSql || c.m_countingElapsed)

/-- `DatabaseConnection::runQueryCallback` (databaseconnection.hpp:421-431). -/
def runQueryCallback (c : DatabaseConnection σ) (queryString : String)
    (bindings : List QVariant) (callback : RunCallback σ R) : RunResult σ R :=
  let invoked := callback c.backend queryString bindings
  { result := invoked.1
    connection := { c with backend := invoked.2 }
    trace := [RunEvent.callback queryString bindings] }

/-- `DatabaseConnection::tryAgainIfCausedByLostConnection`
(databaseconnection.hpp:449-463); `e` is the caught exception `ePtr` points to. -/
def tryAgainIfCausedByLostConnection (env : ConnectionEnv σ) (c : DatabaseConnection σ)
    (e : Exception) (queryString : String) (bindings : List QVariant)
    (callback : RunCallback σ R) : RunResult σ R :=
  if env.causedByLostConnection e then
    let c1 := { c with backend := env.reconnect c.backend }
    let again := runQueryCallback c1 queryString bindings callback
    { again with trace := RunEvent.reconnect :: again.trace }
  else
    { result := Except.error e, connection := c, trace := [] }

/-- `DatabaseConnection::handleQueryException` (databaseconnection.hpp:435-447). -/
def handleQueryException (env : ConnectionEnv σ) (c : DatabaseConnection σ)
    (e : Exception) (queryString : String) (bindings : List QVariant)
    (callback : RunCallback σ R) : RunResult σ R :=
  if c.inTransaction then
    { result := Except.error e, connection := c, trace := [] }
  else
    tryAgainIfCausedByLostConnection env c e queryString bindings callback

/-- The `try` / `catch (const Exceptions::QueryError &)` block of `run`
(databaseconnection.hpp:393-399): only a `QueryError` reaches `handleQueryException`. -/
def runGuarded (env : ConnectionEnv σ) (c : DatabaseConnection σ) (queryString : String)
    (bindings : List QVariant) (callback : RunCallback σ R) : RunResult σ R :=
  let first := runQueryCallback c queryString bindings callback
  match first.result with
  | Except.ok _ => first
  | Except.error e =>
    if e.isQueryError then
      let handled := handleQueryException env first.connection e queryString bindings callback
      { handled with trace := first.trace ++ handled.trace }
    else first

/-- `DatabaseConnection::run` (databaseconnection.hpp:373-419). `timerElapsed` is what
`timer.elapsed()` reads when the timer runs. An exception leaves `run` before the counter
and the log are touched. -/
def run (env : ConnectionEnv σ) (c : DatabaseConnection σ) (queryString : String)
    (bindings : List QVariant) (callback : RunCallback σ R) (timerElapsed : Int) :
    RunResult σ R :=
  let c0 := { c with backend := env.reconnectIfMissingConnection c.backend }
  let countElapsed := c0.shouldCountElapsed
  let guarded := runGuarded env c0 queryString bindings callback
  match guarded.result with
  | Except.error e =>
    { result := Except.error e
      connection := guarded.connection
      trace := RunEvent.reconnectIfMissingConnection :: guarded.trace }
  | Except.ok result =>
    let elapsed : Option Int := if countElapsed then some timerElapsed else none
    let c1 :=
      if countElapsed then
        { guarded.connection with
          m_elapsedCounter := guarded.connection.m_elapsedCounter + timerElapsed }
      else guarded.connection
    let logged : RunEvent R :=
      if c1.m_pretending then RunEvent.logQueryForPretend queryString bindings
      else RunEvent.logQuery result elapsed
    { result := Except.ok result
      connection := c1
      trace := RunEvent.reconnectIfMissingConnection :: (guarded.trace ++ [logged]) }

end DatabaseConnection

/-- A backend for the examples: the number of times it has been reconnected. -/
abbrev SampleBackend := Nat

/-- The environment of the examples: `reconnect` counts, and the message
"server has gone away" is the lost-connection signature. -/
def sampleEnv : ConnectionEnv SampleBackend :=
  { reconnectIfMissingConnection := fun s => s
    reconnect := fun s => s + 1
    causedByLostConnection := fun e =>
      decide (e = Exception.QueryError "server has gone away") }

/-- A connected connection outside a transaction, for the examples. -/
def sampleConnection : DatabaseConnection SampleBackend :=
  { backend := 0, m_pretending := false, m_debugSql := false, m_countingElapsed := true,
    m_elapsedCounter := 0, transactionDepth := 0 }

/-- A callback for the examples that fails with a lost connection until the backend has
been reconnected, and then returns the number of bindings. -/
def sampleFlakyCallback : RunCallback SampleBackend Nat :=
  fun s _ bindings =>
    if s = 0 then (Except.error (Exception.QueryError "server has gone away"), s)
    else (Except.ok bindings.length, s)

/-- A callback for the examples that always fails with a lost connection. -/
def sampleDeadCallback : RunCallback SampleBackend Nat :=
  fun s _ _ => (Except.error (Exception.QueryError "server has gone away"), s)

/-- A callback for the examples that always fails with a syntax error. -/
def sampleSyntaxErrorCallback : RunCallback SampleBackend Nat :=
  fun s _ _ => (Except.error (Exception.QueryError "syntax error near FROM"), s)

/-! ## Further members of the builder: columns, ordering, limit and offset -/

namespace BindingsMap

/-- The effect of `m.find(t)->clear()`: the bucket found under `t` is emptied. With no such
bucket `find` returns `end()` and the source's behaviour is undefined; the map is then left
as it is here, and the properties below are stated for stores that have the bucket. -/
def clearFound : BindingsMap → BindingType → BindingsMap
  | [], _ => []
  | (k, v) :: m, t => if k = t then (k, []) :: m else (k, v) :: clearFound m t

/-- The effect of `m[t].clear()`: `operator[]` finds the bucket (default-inserting it when
absent) and the bucket is emptied. -/
def clearAt (m : BindingsMap) (t : BindingType) : BindingsMap := insert m t []

end BindingsMap

/-- The result of a member function that checks its argument with `Q_ASSERT`: it returns
`*this`, or the assertion fails and the program stops with the builder in state `b`. -/
inductive Asserted where
  | returned (b : Builder)
  | assertFailed (b : Builder)

namespace Asserted

/-- The builder state when the call returned or stopped. -/
def state : Asserted → Builder
  | returned b => b
  | assertFailed b => b

/-- Whether the call stopped at a failed `Q_ASSERT`. -/
def failed : Asserted → Bool
  | returned _ => false
  | assertFailed _ => true

/-- Sequencing `a.f().g()`: `g` runs on what `f` returned; a failed assertion ends the
chain. -/
def andThen (o : Asserted) (f : Builder → Asserted) : Asserted :=
  match o with
  | returned b => f b
  | assertFailed b => assertFailed b

end Asserted

namespace Builder

/-- `Builder::from(table, as)` (querybuilder.cpp:216-221). -/
def from_ (b : Builder) (table as : String) : Outcome :=
  Outcome.returned (mk { b.core with
    m_from := FromClause.table (if as.isEmpty then table else table ++ " as " ++ as) })

/-- `Builder::clearColumns` (querybuilder.cpp:742-749). -/
def clearColumns (b : Builder) : Builder :=
  mk { b.core with m_columns := [], m_bindings := b.m_bindings.clearAt BindingType.SELECT }

/-- `Builder::select(const QStringList &)` (querybuilder.cpp:167-175). -/
def select (b : Builder) (columns : List String) : Outcome :=
  let b1 := b.clearColumns
  Outcome.returned (mk { b1.core with m_columns := b1.m_columns ++ columns })

/-- `Builder::addSelect(const QStringList &)` (querybuilder.cpp:182-187). -/
def addSelect (b : Builder) (columns : List String) : Outcome :=
  Outcome.returned (mk { b.core with m_columns := b.m_columns ++ columns })

/-- The message of the exception `orderBy` throws. -/
def orderDirectionMessage : String :=
  "Order direction must be \"asc\" or \"desc\", case is not important."

/-- `Builder::orderBy` (querybuilder.cpp:458-469). -/
def orderBy (b : Builder) (column direction : String) : Outcome :=
  let directionLower := toLower direction
  if directionLower != "asc" && directionLower != "desc" then
    Outcome.threw (Exception.RuntimeError orderDirectionMessage) b
  else
    Outcome.returned (mk { b.core with
      m_orders := b.m_orders ++ [{ column := column, direction := directionLower }] })

/-- `Builder::orderByDesc` (querybuilder.cpp:471-474). -/
def orderByDesc (b : Builder) (column : String) : Outcome :=
  b.orderBy column "desc"

/-- `Builder::reorder()` (querybuilder.cpp:489-496). -/
def reorder (b : Builder) : Outcome :=
  Outcome.returned (mk { b.core with
    m_orders := [], m_bindings := b.m_bindings.clearFound BindingType.ORDER })

/-- `Builder::reorder(column, direction)` (querybuilder.cpp:498-503). -/
def reorder_by (b : Builder) (column direction : String) : Outcome :=
  (b.reorder).andThen (fun b1 => b1.orderBy column direction)

/-- `Builder::limit` (querybuilder.cpp:505-517). `assertsEnabled` tells whether the build
compiles `Q_ASSERT` in (no `QT_NO_DEBUG`); in the other builds the macro expands to
nothing. -/
def limit (assertsEnabled : Bool) (b : Builder) (value : Int) : Asserted :=
  if assertsEnabled && !decide (value ≥ 0) then
    Asserted.assertFailed b
  else if value ≥ 0 then
    Asserted.returned (mk { b.core with m_limit := value })
  else
    Asserted.returned b

/-- `Builder::take` (querybuilder.cpp:519-522). -/
def take (assertsEnabled : Bool) (b : Builder) (value : Int) : Asserted :=
  limit assertsEnabled b value

/-- `Builder::offset` (querybuilder.cpp:524-531). -/
def offset (assertsEnabled : Bool) (b : Builder) (value : Int) : Asserted :=
  if assertsEnabled && !decide (value ≥ 0) then
    Asserted.assertFailed b
  else
    Asserted.returned (mk { b.core with m_offset := max 0 value })

/-- `Builder::skip` (querybuilder.cpp:533-536). -/
def skip (assertsEnabled : Bool) (b : Builder) (value : Int) : Asserted :=
  offset assertsEnabled b value

/-- `Builder::toSql` (querybuilder.cpp:47-50), a non-const member: the SQL text it returns
and the builder afterwards. `compileSelect` is the grammar's `compileSelect`, a function
of the builder state. -/
def toSql (compileSelect : Builder → String) (b : Builder) : String × Builder :=
  (compileSelect b, b)

end Builder

/-! ## Further members of the builder: sub-queries, joins, inserts, arrays of wheres,
`get` and pagination -/

/-- `QString::startsWith(const QString &)`. -/
def startsWith (s p : String) : Bool := p.data.isPrefixOf s.data

/-- `QString::contains(QChar)`. -/
def containsChar (s : String) (c : Char) : Bool := s.data.contains c

/-- `QVariant::value<QString>()`, the conversion `joinInternal` applies to the second
operand of an ON comparison: the string itself, the decimal text of a number, `true` /
`false`, and the empty string for what does not convert. -/
def QVariant.toQString : QVariant → String
  | QVariant.string s => s
  | QVariant.int i => toString i
  | QVariant.bool b => if b then "true" else "false"
  | _ => ""

/-- Modelled from the spec: `QVariantMap = QMap<QString, QVariant>`, one row of an insert,
as the list of its entries in ascending key order. -/
abbrev QVariantMap := List (String × QVariant)

namespace QVariantMap

/-- `QMap::keys`, ascending. -/
def keys (m : QVariantMap) : List String := m.map Prod.fst

/-- `QMap::values`, in ascending key order: what iterating the map yields. -/
def values (m : QVariantMap) : List QVariant := m.map Prod.snd

/-- `QMap::value(key)`: the value stored under the key (an invalid `QVariant` when the key
is absent). -/
def value : QVariantMap → String → QVariant
  | [], _ => QVariant.invalid
  | (k, v) :: m, key => if k = key then v else value m key

/-- The entries are in strictly ascending key order, as in every `QMap`. -/
def Ordered (m : QVariantMap) : Prop := (keys m).Pairwise (fun a b => a < b)

end QVariantMap

/-- `flatValuesForInsert` (querybuilder.cpp:58-69): every row in batch order, every value of
a row in the order the map iterates. -/
def flatValuesForInsert (values : List QVariantMap) : List QVariant :=
  values.foldl
    (fun flattenValues insertMap =>
      insertMap.foldl (fun acc entry => acc ++ [entry.2]) flattenValues)
    []

/-- 32-bit `int` arithmetic: the two's-complement representative of an integer. -/
def wrapInt32 (x : Int) : Int := (x + 2147483648) % 4294967296 - 2147483648

/-- The value is representable as a 32-bit `int`. -/
def IsInt32 (x : Int) : Prop := -2147483648 ≤ x ∧ x < 2147483648

namespace JoinClause

/-- `JoinClause::JoinClause(query, type, table)` (joinclause.cpp:11-15): a fresh builder on
the connection and grammar of `query`, with the join type and table. -/
def new (query : Builder) (type table : String) : Join :=
  { toBuilder := Builder.new query.m_connection query.m_grammar query.m_operators
    m_type := type
    m_table := FromClause.table table }

/-- `JoinClause::on` (joinclause.cpp:17-32). -/
def on_ (j : Join) (first comparison second condition : String) : Join :=
  { j with toBuilder := (j.toBuilder.whereColumn first comparison second condition).state }

/-- `JoinClause::getBindings`, inherited from `Builder`. -/
def getBindings (j : Join) : List QVariant := j.toBuilder.getBindings

end JoinClause

namespace Builder

/-- `Builder::prependDatabaseNameIfCrossDatabaseQuery` (querybuilder.cpp:803-815), called on
the parent `b` with the sub-query `query`; the result is the sub-query afterwards. `none`
stands for the `std::bad_variant_access` that `std::get<QString>(query.m_from)` throws when
the from target is not a table name. -/
def prependDatabaseNameIfCrossDatabaseQuery (b query : Builder) : Option Builder :=
  let queryDatabaseName := query.m_connection.databaseName
  match query.m_from with
  | FromClause.table queryFrom =>
    if queryDatabaseName != b.m_connection.databaseName &&
        !startsWith queryFrom queryDatabaseName &&
        !containsChar queryFrom '.' then
      some (query.from_ (queryDatabaseName ++ "." ++ queryFrom) "").state
    else
      some query
  | _ => none

/-- `Builder::createSub(Builder &query)` (querybuilder.cpp:783-789): the SQL text and the
bindings of the sub-query, and the sub-query afterwards. -/
def createSub (compileSelect : Builder → String) (b query : Builder) :
    Option ((String × List QVariant) × Builder) :=
  match b.prependDatabaseNameIfCrossDatabaseQuery query with
  | none => none
  | some query1 =>
    let compiled := query1.toSql compileSelect
    some ((compiled.1, compiled.2.getBindings), compiled.2)

/-- `Builder::newJoinClause(query, type, table)` (querybuilder.cpp:728-733). -/
def newJoinClause (query : Builder) (type table : String) : Join :=
  JoinClause.new query type table

/-- `Builder::joinInternal(join)` (querybuilder.cpp:844-856). -/
def joinInternal (b : Builder) (join : Join) : Outcome :=
  let b1 := mk { b.core with m_joins := b.m_joins ++ [join] }
  b1.addBindings join.getBindings BindingType.JOIN

/-- `Builder::joinInternal(join, first, comparison, second, where)`
(querybuilder.cpp:822-833); `where` and `on` are called with their default connector
`"and"`. -/
def joinInternal_on (b : Builder) (join : Join) (first comparison : String)
    (second : QVariant) (where_ : Bool) : Outcome :=
  if where_ then
    match join.toBuilder.where_ first comparison second "and" with
    | Outcome.threw e _ => Outcome.threw e b
    | Outcome.returned query => b.joinInternal { join with toBuilder := query }
  else
    b.joinInternal (join.on_ first comparison second.toQString "and")

/-- `Builder::joinInternal(join, callback)` (querybuilder.cpp:835-842). -/
def joinInternal_callback (b : Builder) (join : Join)
    (callback : Join → Except Exception Join) : Outcome :=
  match callback join with
  | Except.error e => Outcome.threw e b
  | Except.ok join1 => b.joinInternal join1

/-- `Builder::insert(const QVector<QVariantMap> &)` (querybuilder.cpp:72-86): the arguments
of the call `m_connection.insert(sql, bindings)` it makes, or `none` when it returns
`std::nullopt` for an empty batch without calling the connection. `compileInsert` is the
grammar's. -/
def insert (compileInsert : Builder → List QVariantMap → String) (b : Builder)
    (values : List QVariantMap) : Option (String × List QVariant) :=
  if values.isEmpty then none
  else some (compileInsert b values, cleanBindings (flatValuesForInsert values))

/-- `Builder::addArrayOfWheres(const QVector<WhereItem> &, condition)`
(querybuilder.cpp:701-711). -/
def addArrayOfWheres (b : Builder) (values : List WhereItem) (condition : String) :
    Outcome :=
  b.where_callback
    (fun query =>
      values.foldl
        (fun acc where_ =>
          acc.andThen (fun q =>
            q.where_ where_.column where_.comparison where_.value
              (if where_.condition.isEmpty then condition else where_.condition)))
        (Outcome.returned query))
    condition

/-- `Builder::where(const QVector<WhereItem> &, condition)` (querybuilder.cpp:292-299). -/
def where_items (b : Builder) (values : List WhereItem) (condition : String) : Outcome :=
  b.addArrayOfWheres values condition

/-- `Builder::orWhere(const QVector<WhereItem> &)` (querybuilder.cpp:301-304). -/
def orWhere_items (b : Builder) (values : List WhereItem) : Outcome :=
  b.where_items values "or"

/-- `Builder::onceWithColumns` (querybuilder.cpp:751-768). The callback works on the
builder and returns or throws; an exception leaves before the columns are put back. -/
def onceWithColumns {R : Type} (b : Builder) (columns : List String)
    (callback : Builder → Except Exception R × Builder) : Except Exception R × Builder :=
  let original := b.m_columns
  let b1 := if original.isEmpty then mk { b.core with m_columns := columns } else b
  match callback b1 with
  | (Except.ok result, b2) => (Except.ok result, mk { b2.core with m_columns := original })
  | (Except.error e, b2) => (Except.error e, b2)

/-- `Builder::runSelect` (querybuilder.cpp:817-820); `select` is the connection's. -/
def runSelect {R : Type} (compileSelect : Builder → String)
    (select : String → List QVariant → Except Exception R) (b : Builder) :
    Except Exception R × Builder :=
  let compiled := b.toSql compileSelect
  (select compiled.1 compiled.2.getBindings, compiled.2)

/-- `Builder::get` (querybuilder.cpp:18-25). -/
def get {R : Type} (compileSelect : Builder → String)
    (select : String → List QVariant → Except Exception R) (b : Builder)
    (columns : List String) : Except Exception R × Builder :=
  b.onceWithColumns columns (fun q => q.runSelect compileSelect select)

/-- `Builder::forPage` (querybuilder.cpp:538-541), in 32-bit `int` arithmetic. -/
def forPage (assertsEnabled : Bool) (b : Builder) (page perPage : Int) : Asserted :=
  (offset assertsEnabled b (wrapInt32 (wrapInt32 (page - 1) * perPage))).andThen
    (fun b1 => limit assertsEnabled b1 perPage)

end Builder

/-! ## Statements in sequence, and the MySQL ping -/

/-- One statement handed to `run`: its SQL, its bindings and the callback that executes
it. -/
structure Statement (σ R : Type) where
  queryString : String
  bindings : List QVariant
  callback : RunCallback σ R

namespace DatabaseConnection

variable {σ R : Type}

/-- The statements issued one after the other on a connection, each through `run`, the next
one on the connection the previous one left: the results of the `run` calls in issue
order. -/
def runEach (env : ConnectionEnv σ) :
    DatabaseConnection σ → List (Statement σ R) → Int → List (RunResult σ R)
  | _, [], _ => []
  | c, s :: rest, timerElapsed =>
    let r := c.run env s.queryString s.bindings s.callback timerElapsed
    r :: runEach env r.connection rest timerElapsed

/-- The log calls made by a series of `run` calls, in order. -/
def logCalls : List (RunResult σ R) → List (RunEvent R)
  | [] => []
  | r :: rest => r.trace.filter RunEvent.isLog ++ logCalls rest

end DatabaseConnection

/-- `CR_COMMANDS_OUT_OF_SYNC` of the MySQL client library (`mysql/errmsg.h`). -/
def CR_COMMANDS_OUT_OF_SYNC : Nat := 2014

/-- What `MySqlConnection::pingDatabase` reads from the Qt connection and the MySQL client
library: whether the connection is open, the type name of the driver handle, the `MYSQL *`
stored in it (`none` for a null pointer), and what `mysql_ping` and `mysql_errno` return
for that handle. -/
structure MySqlDriverState where
  isOpen : Bool
  handleTypeName : String
  mysqlHandle : Option Nat
  ping : Int
  errNo : Nat
deriving DecidableEq, Repr

/-- What `pingDatabase` does besides returning: the calls it makes, in order. -/
inductive PingEvent where
  | warnOutOfSync
  | warnUnknownBehavior
  | logConnected
  | logDisconnected
  | close
  | resetTransactions
deriving DecidableEq, Repr

/-- The branch of the ping decision that produced the result. -/
inductive PingBranch where
  | noHandle
  | outOfSync
  | pingSucceeded
  | pingFailed
  | unknownBehavior
deriving DecidableEq, Repr

namespace MySqlConnection

/-- The lambda `getMysqlHandle` (mysqlconnection.cpp:66-74). -/
def getMysqlHandle (d : MySqlDriverState) : Option Nat :=
  if d.handleTypeName == "MYSQL*" then d.mysqlHandle else none

/-- The lambda `mysqlPing` (mysqlconnection.cpp:76-101): its result, the branch that
produced it, and the warnings it printed. -/
def mysqlPing (d : MySqlDriverState) : Bool × PingBranch × List PingEvent :=
  match getMysqlHandle d with
  | none => (false, PingBranch.noHandle, [])
  | some _ =>
    let ping := d.ping
    let errNo := d.errNo
    if ping != 0 && errNo == CR_COMMANDS_OUT_OF_SYNC then
      (true, PingBranch.outOfSync, [PingEvent.warnOutOfSync])
    else if ping == 0 then
      (true, PingBranch.pingSucceeded, [])
    else if ping != 0 then
      (false, PingBranch.pingFailed, [])
    else
      (false, PingBranch.unknownBehavior, [PingEvent.warnUnknownBehavior])

/-- What a call of `pingDatabase` leaves behind: the value returned, the calls made, and
whether the Qt connection is open afterwards. -/
structure PingOutcome where
  result : Bool
  events : List PingEvent
  isOpenAfter : Bool
deriving DecidableEq, Repr

/-- `MySqlConnection::pingDatabase` (mysqlconnection.cpp:61-129) on the Qt connection
`getQtConnection()` returned. `mysqlPingEnabled` tells whether the build defines
`TINYORM_MYSQL_PING`; `mysqlPing()` is only evaluated when the connection is open. -/
def pingDatabase (mysqlPingEnabled : Bool) (d : MySqlDriverState) :
    Except Exception PingOutcome :=
  if mysqlPingEnabled then
    if d.isOpen then
      let pinged := mysqlPing d
      if pinged.1 then
        Except.ok { result := true
                    events := pinged.2.2 ++ [PingEvent.logConnected]
                    isOpenAfter := true }
      else
        Except.ok { result := false
                    events := pinged.2.2 ++
                      [PingEvent.logDisconnected, PingEvent.close,
                        PingEvent.resetTransactions]
                    isOpenAfter := false }
    else
      Except.ok { result := false
                  events :=
                    [PingEvent.logDisconnected, PingEvent.close, PingEvent.resetTransactions]
                  isOpenAfter := false }
  else
    Except.error (Exception.RuntimeError
      "pingDatabase() method was disabled for the database driver")

end MySqlConnection

/-- The WHERE node `addArrayOfWheres` makes of an item under the connector `condition`:
the arguments it passes to `where` (querybuilder.cpp:707-708). -/
def Builder.itemNode (condition : String) (item : WhereItem) : WhereNode :=
  { column := item.column, value := item.value, comparison := item.comparison,
    condition := if item.condition.isEmpty then condition else item.condition,
    type := WhereType.BASIC, nestedQuery := none, values := [], columnTwo := "" }

/-- A parent builder on database `main`, for the examples. -/
def sampleParent : Builder :=
  Builder.new { databaseName := "main" } sampleGrammar sampleOperators

/-- A sub-query builder on database `shop` with the given from target, for the examples. -/
def sampleSubQuery (table : String) : Builder :=
  ((Builder.new { databaseName := "shop" } sampleGrammar sampleOperators).from_ table
    "").state

/-- The statements of the examples: each succeeds and returns the number of its
bindings. -/
def sampleStatements : List (Statement SampleBackend Nat) :=
  [{ queryString := "select * from users where id = ?", bindings := [QVariant.int 1],
     callback := fun s _ bindings => (Except.ok bindings.length, s) },
   { queryString := "insert into users (name) values (?)",
     bindings := [QVariant.string "a"],
     callback := fun s _ bindings => (Except.ok bindings.length, s) }]

/-- A batch of two rows over the keys `id` and `name`, for the examples. -/
def sampleRows : List QVariantMap :=
  [[("id", QVariant.int 1), ("name", QVariant.string "a")],
   [("id", QVariant.int 2), ("name", QVariant.string "b")]]

/-- A `compileSelect` for the examples: the column list, comma separated. -/
def sampleCompileSelect (b : Builder) : String := String.intercalate ", " b.m_columns

/-- A connection `select` for the examples: it hands back the SQL and the number of
bindings it was given. -/
def sampleSelect (sql : String) (bindings : List QVariant) :
    Except Exception (String × Nat) :=
  Except.ok (sql, bindings.length)

/-- An open MySQL connection whose ping succeeds, for the examples. -/
def sampleAliveDriver : MySqlDriverState :=
  { isOpen := true, handleTypeName := "MYSQL*", mysqlHandle := some 1, ping := 0, errNo := 0 }

/-- An open MySQL connection whose ping fails with "server has gone away" (2006), for the
examples. -/
def sampleGoneDriver : MySqlDriverState :=
  { isOpen := true, handleTypeName := "MYSQL*", mysqlHandle := some 1, ping := 1,
    errNo := 2006 }

/-! ## Lemmas on the binding store -/

namespace BindingsMap

theorem value_insert (m : BindingsMap) (t t' : BindingType) (v : List QVariant) :
    value (insert m t v) t' = if t = t' then v else value m t' := by
  induction m with
  | nil => simp [insert, value]
  | cons kv m ih =>
    obtain ⟨k, w⟩ := kv
    simp only [insert]
    split_ifs with h1 h2 h3 h4 h5 <;> simp_all [value]

theorem value_appendTo (m : BindingsMap) (t t' : BindingType) (vs : List QVariant) :
    value (appendTo m t vs) t' = if t = t' then value m t ++ vs else value m t' := by
  simp [appendTo, value_insert]

theorem value_appendTo_same (m : BindingsMap) (t : BindingType) (vs : List QVariant) :
    value (appendTo m t vs) t = value m t ++ vs := by
  simp [value_appendTo]

theorem value_appendTo_other (m : BindingsMap) (t t' : BindingType) (vs : List QVariant)
    (h : t' ≠ t) : value (appendTo m t vs) t' = value m t' := by
  rw [value_appendTo, if_neg (fun e => h e.symm)]

theorem complete_cases (m : BindingsMap) (h : Complete m) :
    ∃ b0 b1 b2 b3 b4 b5 b6 b7 : List QVariant,
      m = [(0, b0), (1, b1), (2, b2), (3, b3), (4, b4), (5, b5), (6, b6), (7, b7)] := by
  unfold Complete keys at h
  match m, h with
  | [(k0, b0), (k1, b1), (k2, b2), (k3, b3), (k4, b4), (k5, b5), (k6, b6), (k7, b7)], h =>
    simp [BindingType.all, BindingType.SELECT, BindingType.FROM, BindingType.JOIN,
      BindingType.WHERE, BindingType.GROUPBY, BindingType.HAVING, BindingType.ORDER,
      BindingType.UNION] at h
    obtain ⟨rfl, rfl, rfl, rfl, rfl, rfl, rfl, rfl⟩ := h
    exact ⟨b0, b1, b2, b3, b4, b5, b6, b7, rfl⟩

theorem complete_initial : Complete initial := by decide

theorem contains_of_complete (m : BindingsMap) (h : Complete m) (t : BindingType) :
    contains m t = true ↔ t ∈ BindingType.all := by
  obtain ⟨b0, b1, b2, b3, b4, b5, b6, b7, rfl⟩ := complete_cases m h
  simp only [contains, BindingType.all, BindingType.SELECT, BindingType.FROM,
    BindingType.JOIN, BindingType.WHERE, BindingType.GROUPBY, BindingType.HAVING,
    BindingType.ORDER, BindingType.UNION, List.any_cons, List.any_nil, Bool.or_false,
    Bool.or_eq_true, beq_iff_eq, List.mem_cons, List.mem_singleton, List.not_mem_nil,
    or_false]
  constructor <;> intro h <;> rcases h with h | h | h | h | h | h | h | h <;> subst h <;> simp

theorem complete_appendTo (m : BindingsMap) (h : Complete m) (t : BindingType)
    (ht : contains m t = true) (vs : List QVariant) : Complete (appendTo m t vs) := by
  have ht' := (contains_of_complete m h t).1 ht
  obtain ⟨b0, b1, b2, b3, b4, b5, b6, b7, rfl⟩ := complete_cases m h
  simp [BindingType.all, BindingType.SELECT, BindingType.FROM, BindingType.JOIN,
    BindingType.WHERE, BindingType.GROUPBY, BindingType.HAVING, BindingType.ORDER,
    BindingType.UNION] at ht'
  rcases ht' with rfl | rfl | rfl | rfl | rfl | rfl | rfl | rfl <;> rfl

theorem foldl_append_singleton (l acc : List QVariant) :
    l.foldl (fun a x => a ++ [x]) acc = acc ++ l := by
  induction l generalizing acc with
  | nil => simp
  | cons x l ih => simp [ih]

/-- On a complete store the flattening loop of `getBindings` yields the buckets in
declaration order. -/
theorem flatten_of_complete (m : BindingsMap) (h : Complete m) :
    m.foldl (fun acc kv => kv.2.foldl (fun a x => a ++ [x]) acc) [] =
      value m BindingType.SELECT ++ value m BindingType.FROM ++ value m BindingType.JOIN ++
        value m BindingType.WHERE ++ value m BindingType.GROUPBY ++
        value m BindingType.HAVING ++ value m BindingType.ORDER ++
        value m BindingType.UNION := by
  obtain ⟨b0, b1, b2, b3, b4, b5, b6, b7, rfl⟩ := complete_cases m h
  simp [foldl_append_singleton, value, BindingType.SELECT, BindingType.FROM,
    BindingType.JOIN, BindingType.WHERE, BindingType.GROUPBY, BindingType.HAVING,
    BindingType.ORDER, BindingType.UNION]

end BindingsMap

namespace BindingsMap

theorem contains_appendTo (m : BindingsMap) (h : Complete m) (t t' : BindingType)
    (ht : contains m t = true) (vs : List QVariant) :
    contains (appendTo m t vs) t' = contains m t' := by
  have hc := complete_appendTo m h t ht vs
  have h1 := contains_of_complete m h t'
  have h2 := contains_of_complete _ hc t'
  cases hx : contains (appendTo m t vs) t' <;> cases hy : contains m t' <;> simp_all

theorem appendTo_comm (m : BindingsMap) (h : Complete m) (t1 t2 : BindingType)
    (h1 : contains m t1 = true) (h2 : contains m t2 = true) (hne : t1 ≠ t2)
    (vs ws : List QVariant) :
    appendTo (appendTo m t1 vs) t2 ws = appendTo (appendTo m t2 ws) t1 vs := by
  have k1 := (contains_of_complete m h t1).1 h1
  have k2 := (contains_of_complete m h t2).1 h2
  obtain ⟨b0, b1, b2, b3, b4, b5, b6, b7, rfl⟩ := complete_cases m h
  simp only [BindingType.all, BindingType.SELECT, BindingType.FROM, BindingType.JOIN,
    BindingType.WHERE, BindingType.GROUPBY, BindingType.HAVING, BindingType.ORDER,
    BindingType.UNION, List.mem_cons, List.mem_singleton, List.not_mem_nil, or_false]
    at k1 k2
  rcases k1 with rfl | rfl | rfl | rfl | rfl | rfl | rfl | rfl <;>
    rcases k2 with rfl | rfl | rfl | rfl | rfl | rfl | rfl | rfl <;>
    first
      | exact absurd rfl hne
      | rfl

end BindingsMap

/-! ## Lemmas on the builder -/

namespace Builder

theorem getBindings_of_complete (b : Builder) (h : b.m_bindings.Complete) :
    b.getBindings =
      b.m_bindings.value BindingType.SELECT ++ b.m_bindings.value BindingType.FROM ++
        b.m_bindings.value BindingType.JOIN ++ b.m_bindings.value BindingType.WHERE ++
        b.m_bindings.value BindingType.GROUPBY ++ b.m_bindings.value BindingType.HAVING ++
        b.m_bindings.value BindingType.ORDER ++ b.m_bindings.value BindingType.UNION :=
  BindingsMap.flatten_of_complete b.m_bindings h

theorem addBinding_of_contains (b : Builder) (v : QVariant) (t : BindingType)
    (h : b.m_bindings.contains t = true) :
    b.addBinding v t =
      Outcome.returned (mk { b.core with m_bindings := b.m_bindings.appendTo t [v] }) := by
  simp [addBinding, h]

theorem addBindings_of_contains (b : Builder) (vs : List QVariant) (t : BindingType)
    (h : b.m_bindings.contains t = true) :
    b.addBindings vs t =
      Outcome.returned (mk { b.core with m_bindings := b.m_bindings.appendTo t vs }) := by
  simp [addBindings, h]

theorem addBinding_of_not_contains (b : Builder) (v : QVariant) (t : BindingType)
    (h : b.m_bindings.contains t = false) :
    b.addBinding v t =
      Outcome.threw (Exception.RuntimeError ("Invalid binding type: " ++ toString t)) b := by
  simp [addBinding, h]

end Builder

/-! ## Lemmas on the WHERE list and its bucket -/

theorem nodesCarriedValues_append (xs ys : List WhereNode) :
    nodesCarriedValues (xs ++ ys) = nodesCarriedValues xs ++ nodesCarriedValues ys := by
  induction xs with
  | nil => simp [nodesCarriedValues]
  | cons x xs ih => simp [nodesCarriedValues, ih]

namespace Builder

theorem carriedValues_eq (b : Builder) : b.carriedValues = nodesCarriedValues b.m_wheres := by
  obtain ⟨core⟩ := b
  obtain ⟨_, _, _, _, _, _, _, _, wheres, _, _, _, _, _, _⟩ := core
  simp [Builder.carriedValues, coreCarriedValues, Builder.m_wheres, Builder.core]

theorem cleanBindings_eq_filter (bs : List QVariant) :
    cleanBindings bs = bs.filter (fun v => !v.canConvertExpression) := by
  have key : ∀ (l acc : List QVariant),
      l.foldl (fun cleaned binding =>
        if !binding.canConvertExpression then cleaned ++ [binding] else cleaned) acc =
      acc ++ l.filter (fun v => !v.canConvertExpression) := by
    intro l
    induction l with
    | nil => simp
    | cons x l ih =>
      intro acc
      rw [List.foldl_cons, ih]
      cases hx : x.canConvertExpression <;> simp [List.filter_cons, hx]
  simpa [cleanBindings] using key bs []

theorem cleanBindings_of_noExpression (bs : List QVariant)
    (h : bs.all (fun v => !v.canConvertExpression) = true) : cleanBindings bs = bs := by
  rw [cleanBindings_eq_filter]
  apply List.filter_eq_self.2
  simpa using h

theorem inSync_new (connection : ConnectionRef) (grammar : GrammarRef)
    (operators : List String) : (Builder.new connection grammar operators).InSync := by
  constructor
  · exact BindingsMap.complete_initial
  · rfl

theorem inSync_forNestedWhere (b : Builder) : b.forNestedWhere.InSync := by
  constructor
  · exact BindingsMap.complete_initial
  · rfl

end Builder

namespace Builder

theorem m_wheres_appendWhere (b : Builder) (n : WhereNode) :
    (b.appendWhere n).m_wheres = b.m_wheres ++ [n] := rfl

theorem m_bindings_appendWhere (b : Builder) (n : WhereNode) :
    (b.appendWhere n).m_bindings = b.m_bindings := rfl

theorem carriedValues_appendWhere (b : Builder) (n : WhereNode) :
    (b.appendWhere n).carriedValues = b.carriedValues ++ nodeCarriedValues n := by
  rw [carriedValues_eq, carriedValues_eq, m_wheres_appendWhere, nodesCarriedValues_append]
  simp [nodesCarriedValues]

/-- Appending a node and binding exactly the values it carries keeps builder and store in
step. -/
theorem inSync_append (b : Builder) (h : b.InSync) (n : WhereNode) :
    ∃ b1, (b.appendWhere n).addBindings (nodeCarriedValues n) BindingType.WHERE =
        Outcome.returned b1 ∧ b1.InSync := by
  have hc : (b.appendWhere n).m_bindings.contains BindingType.WHERE = true := by
    rw [m_bindings_appendWhere]
    exact (BindingsMap.contains_of_complete _ h.1 _).2 (by decide)
  refine ⟨_, addBindings_of_contains _ _ _ hc, ?_, ?_⟩
  · exact BindingsMap.complete_appendTo _ h.1 _ hc _
  · show BindingsMap.value (BindingsMap.appendTo b.m_bindings BindingType.WHERE _)
        BindingType.WHERE = Builder.carriedValues (Builder.mk _)
    rw [BindingsMap.value_appendTo_same, h.2, carriedValues_eq, carriedValues_eq]
    show _ = nodesCarriedValues (b.m_wheres ++ [n])
    rw [nodesCarriedValues_append]
    simp [nodesCarriedValues]

theorem addBinding_eq_addBindings (b : Builder) (v : QVariant) (t : BindingType) :
    b.addBinding v t = b.addBindings [v] t := rfl

/-- Appending a node that carries no value, with no binding, keeps builder and store in
step. -/
theorem inSync_append_silent (b : Builder) (h : b.InSync) (n : WhereNode)
    (hn : nodeCarriedValues n = []) : (b.appendWhere n).InSync := by
  refine ⟨h.1, ?_⟩
  rw [carriedValues_appendWhere, hn, List.append_nil]
  exact h.2

end Builder

namespace Builder

theorem inSync_where_ (b : Builder) (h : b.InSync) (column comparison : String)
    (value : QVariant) (condition : String) :
    ∃ b1, b.where_ column comparison value condition = Outcome.returned b1 ∧ b1.InSync :=
  inSync_append b h
    { column := column, value := value, comparison := comparison, condition := condition,
      type := WhereType.BASIC, nestedQuery := none, values := [], columnTwo := "" }

theorem inSync_whereColumn (b : Builder) (h : b.InSync)
    (first comparison second condition : String) :
    ∃ b1, b.whereColumn first comparison second condition = Outcome.returned b1 ∧
      b1.InSync :=
  ⟨_, rfl, inSync_append_silent b h _ rfl⟩

theorem inSync_whereIn (b : Builder) (h : b.InSync) (column : String)
    (values : List QVariant) (condition : String) (nope : Bool)
    (hv : values.all (fun v => !v.canConvertExpression) = true) :
    ∃ b1, b.whereIn column values condition nope = Outcome.returned b1 ∧ b1.InSync := by
  unfold whereIn
  rw [cleanBindings_of_noExpression values hv]
  cases nope
  · exact inSync_append b h
      { column := column, value := QVariant.invalid, comparison := "=",
        condition := condition, type := WhereType.IN_, nestedQuery := none,
        values := values, columnTwo := "" }
  · exact inSync_append b h
      { column := column, value := QVariant.invalid, comparison := "=",
        condition := condition, type := WhereType.NOT_IN, nestedQuery := none,
        values := values, columnTwo := "" }

theorem inSync_whereNull (b : Builder) (h : b.InSync) (columns : List String)
    (condition : String) (nope : Bool) :
    ∃ b1, b.whereNull columns condition nope = Outcome.returned b1 ∧ b1.InSync := by
  refine ⟨_, rfl, ?_⟩
  induction columns generalizing b with
  | nil => exact h
  | cons column columns ih =>
    rw [List.foldl_cons]
    apply ih
    apply inSync_append_silent b h
    cases nope <;> rfl

theorem inSync_having (b : Builder) (h : b.InSync) (column comparison : String)
    (value : QVariant) (condition : String) :
    ∃ b1, b.having column comparison value condition = Outcome.returned b1 ∧ b1.InSync := by
  have hc : b.m_bindings.contains BindingType.HAVING = true :=
    (BindingsMap.contains_of_complete _ h.1 _).2 (by decide)
  refine ⟨_, addBinding_of_contains _ _ _ hc, ?_, ?_⟩
  · exact BindingsMap.complete_appendTo _ h.1 _ hc _
  · show BindingsMap.value (BindingsMap.appendTo b.m_bindings BindingType.HAVING _)
        BindingType.WHERE = Builder.carriedValues (Builder.mk _)
    rw [BindingsMap.value_appendTo_other _ _ _ _ (by decide), h.2, carriedValues_eq,
      carriedValues_eq]
    rfl

theorem inSync_addNestedWhereQuery (b : Builder) (h : b.InSync) (query : Builder)
    (hq : query.InSync) (condition : String) :
    ∃ b1, b.addNestedWhereQuery query condition = Outcome.returned b1 ∧ b1.InSync := by
  unfold addNestedWhereQuery
  by_cases hw : query.m_wheres.length > 0
  · have hcarry : nodeCarriedValues
        { column := "", value := QVariant.invalid, comparison := "=",
          condition := condition, type := WhereType.NESTED, nestedQuery := some query,
          values := [], columnTwo := "" } =
        query.getRawBindings.value BindingType.WHERE := by
      show query.carriedValues = _
      exact hq.2.symm
    by_cases hb : (query.getRawBindings.value BindingType.WHERE).length > 0
    · simp only [hw, hb, decide_True, Bool.not_true, Bool.false_eq_true, if_false, if_true]
      rw [← hcarry]
      exact inSync_append b h _
    · simp only [hw, hb, decide_True, Bool.not_true, Bool.false_eq_true, if_false]
      refine ⟨_, rfl, inSync_append_silent b h _ ?_⟩
      rw [hcarry]
      exact List.length_eq_zero.1 (Nat.eq_zero_of_not_pos hb)
  · simp only [hw, decide_False, Bool.not_false, if_true]
    exact ⟨b, rfl, h⟩

end Builder

mutual
theorem Call.run_inSync : ∀ (c : Call), Call.noExpression c = true → ∀ (b : Builder),
    b.InSync → ∃ b1, Call.run c b = Outcome.returned b1 ∧ b1.InSync
  | Call.where_ column comparison value condition, _, b, hb =>
    Builder.inSync_where_ b hb column comparison value condition
  | Call.orWhere column comparison value, _, b, hb =>
    Builder.inSync_where_ b hb column comparison value "or"
  | Call.whereColumn first comparison second condition, _, b, hb =>
    Builder.inSync_whereColumn b hb first comparison second condition
  | Call.whereIn column values condition, h, b, hb =>
    Builder.inSync_whereIn b hb column values condition false h
  | Call.whereNotIn column values condition, h, b, hb =>
    Builder.inSync_whereIn b hb column values condition true h
  | Call.whereNull columns condition, _, b, hb =>
    Builder.inSync_whereNull b hb columns condition false
  | Call.whereNotNull columns condition, _, b, hb =>
    Builder.inSync_whereNull b hb columns condition true
  | Call.where_callback body condition, h, b, hb => by
    obtain ⟨q, hq, hsync⟩ :=
      Call.runAll_inSync body h b.forNestedWhere (Builder.inSync_forNestedWhere b)
    obtain ⟨b1, h1, hs1⟩ := Builder.inSync_addNestedWhereQuery b hb q hsync condition
    refine ⟨b1, ?_, hs1⟩
    simp only [Call.run, Builder.where_callback, hq]
    exact h1
  | Call.having column comparison value condition, _, b, hb =>
    Builder.inSync_having b hb column comparison value condition
  | Call.orHaving column comparison value, _, b, hb =>
    Builder.inSync_having b hb column comparison value "or"
theorem Call.runAll_inSync : ∀ (cs : List Call), Call.allNoExpression cs = true →
    ∀ (b : Builder), b.InSync → ∃ b1, Call.runAll cs b = Outcome.returned b1 ∧ b1.InSync
  | [], _, b, hb => ⟨b, rfl, hb⟩
  | c :: cs, h, b, hb => by
    have hc : Call.noExpression c = true ∧ Call.allNoExpression cs = true := by
      simpa [Call.allNoExpression] using h
    obtain ⟨b1, h1, hs1⟩ := Call.run_inSync c hc.1 b hb
    obtain ⟨b2, h2, hs2⟩ := Call.runAll_inSync cs hc.2 b1 hs1
    refine ⟨b2, ?_, hs2⟩
    simp only [Call.runAll, h1]
    exact h2
end

/-! ## Lemmas on clearing a bucket -/

namespace BindingsMap

theorem value_clearFound (m : BindingsMap) (t t' : BindingType) :
    value (clearFound m t) t' = if t = t' then [] else value m t' := by
  induction m with
  | nil => simp [clearFound, value]
  | cons kv m ih =>
    obtain ⟨k, w⟩ := kv
    simp only [clearFound]
    split_ifs with h1 h2 <;> simp_all [value]

theorem keys_clearFound (m : BindingsMap) (t : BindingType) :
    keys (clearFound m t) = keys m := by
  induction m with
  | nil => rfl
  | cons kv m ih =>
    obtain ⟨k, w⟩ := kv
    simp only [clearFound]
    split_ifs with h1
    · rfl
    · simpa [keys] using ih

theorem value_clearAt (m : BindingsMap) (t t' : BindingType) :
    value (clearAt m t) t' = if t = t' then [] else value m t' := by
  simp [clearAt, value_insert]

theorem complete_clearAt (m : BindingsMap) (h : Complete m) (t : BindingType)
    (ht : contains m t = true) : Complete (clearAt m t) := by
  have ht' := (contains_of_complete m h t).1 ht
  obtain ⟨b0, b1, b2, b3, b4, b5, b6, b7, rfl⟩ := complete_cases m h
  simp [BindingType.all, BindingType.SELECT, BindingType.FROM, BindingType.JOIN,
    BindingType.WHERE, BindingType.GROUPBY, BindingType.HAVING, BindingType.ORDER,
    BindingType.UNION] at ht'
  rcases ht' with rfl | rfl | rfl | rfl | rfl | rfl | rfl | rfl <;> rfl

end BindingsMap

/-! ## Lemmas on joins, inserts, arrays of wheres, `get`, pagination and `run` -/

theorem on_keeps_bindings (j : Join) (first comparison second condition : String) :
    (j.on_ first comparison second condition).toBuilder.m_bindings = j.toBuilder.m_bindings :=
  rfl

theorem ons_keep_bindings (ons : List (String × String × String × String)) (j : Join) :
    (ons.foldl (fun acc a => acc.on_ a.1 a.2.1 a.2.2.1 a.2.2.2) j).toBuilder.m_bindings =
      j.toBuilder.m_bindings := by
  induction ons generalizing j with
  | nil => rfl
  | cons a ons ih => rw [List.foldl_cons, ih, on_keeps_bindings]

namespace DatabaseConnection

variable {σ R : Type}

/-- What the guarded part of `run` leaves: no log call, no member written but the live
connection, and a result that, when it is a value, is what an invocation of the callback
returned. -/
theorem runGuarded_facts (env : ConnectionEnv σ) (c : DatabaseConnection σ)
    (queryString : String) (bindings : List QVariant) (callback : RunCallback σ R) :
    (runGuarded env c queryString bindings callback).trace.filter RunEvent.isLog = [] ∧
    (runGuarded env c queryString bindings callback).connection =
      { c with backend :=
        (runGuarded env c queryString bindings callback).connection.backend } ∧
    (∀ r, (runGuarded env c queryString bindings callback).result = Except.ok r →
      ∃ s, (callback s queryString bindings).1 = Except.ok r) := by
  cases h1 : (callback c.backend queryString bindings).1 with
  | ok r1 =>
    refine ⟨?_, ?_, ?_⟩
    · simp [runGuarded, runQueryCallback, h1, RunEvent.isLog]
    · simp [runGuarded, runQueryCallback, h1]
    · intro r hr
      refine ⟨c.backend, ?_⟩
      simpa [runGuarded, runQueryCallback, h1] using hr
  | error e =>
    by_cases hq : e.isQueryError = true
    · by_cases ht : 0 < c.transactionDepth
      · refine ⟨?_, ?_, ?_⟩ <;>
          simp [runGuarded, runQueryCallback, handleQueryException, inTransaction, h1, hq,
            ht, RunEvent.isLog]
      · by_cases hl : env.causedByLostConnection e = true
        · refine ⟨?_, ?_, ?_⟩
          · simp [runGuarded, runQueryCallback, handleQueryException,
              tryAgainIfCausedByLostConnection, inTransaction, h1, hq, ht, hl,
              RunEvent.isLog]
          · simp [runGuarded, runQueryCallback, handleQueryException,
              tryAgainIfCausedByLostConnection, inTransaction, h1, hq, ht, hl]
          · intro r hr
            refine ⟨env.reconnect (callback c.backend queryString bindings).2, ?_⟩
            simpa [runGuarded, runQueryCallback, handleQueryException,
              tryAgainIfCausedByLostConnection, inTransaction, h1, hq, ht, hl] using hr
        · refine ⟨?_, ?_, ?_⟩ <;>
            simp [runGuarded, runQueryCallback, handleQueryException,
              tryAgainIfCausedByLostConnection, inTransaction, h1, hq, ht, hl,
              RunEvent.isLog]
    · refine ⟨?_, ?_, ?_⟩ <;>
        simp [runGuarded, runQueryCallback, h1, hq, RunEvent.isLog]

/-- A `run` that returns a value: its one log call, its counter, its flags, its result. -/
theorem run_ok_facts (env : ConnectionEnv σ) (c : DatabaseConnection σ)
    (queryString : String) (bindings : List QVariant) (callback : RunCallback σ R)
    (timerElapsed : Int) (r : R)
    (hok : (c.run env queryString bindings callback timerElapsed).result = Except.ok r) :
    (c.run env queryString bindings callback timerElapsed).trace.filter RunEvent.isLog =
      [if c.m_pretending then RunEvent.logQueryForPretend queryString bindings
       else RunEvent.logQuery r (if c.shouldCountElapsed then some timerElapsed else none)] ∧
    (c.run env queryString bindings callback timerElapsed).connection.m_elapsedCounter =
      (if c.shouldCountElapsed then c.m_elapsedCounter + timerElapsed
       else c.m_elapsedCounter) ∧
    (c.run env queryString bindings callback timerElapsed).connection.m_pretending =
      c.m_pretending ∧
    (∃ s, (callback s queryString bindings).1 = Except.ok r) := by
  obtain ⟨hlog, hconn, hres⟩ := runGuarded_facts env
    { c with backend := env.reconnectIfMissingConnection c.backend } queryString bindings
    callback
  cases hg : (runGuarded env
      { c with backend := env.reconnectIfMissingConnection c.backend } queryString bindings
      callback).result with
  | error e =>
    simp [run, hg] at hok
  | ok r1 =>
    have hr : r1 = r := by
      simpa [run, hg] using hok
    subst hr
    refine ⟨?_, ?_, ?_, hres r1 hg⟩
    · simp only [run, hg, List.filter_cons, List.filter_append, hlog, RunEvent.isLog]
      rw [hconn]
      cases hp : c.m_pretending <;> cases hd : c.m_debugSql <;>
        cases hc : c.m_countingElapsed <;>
        simp [shouldCountElapsed, hp, hd, hc, RunEvent.isLog]
    · simp only [run, hg]
      rw [hconn]
      cases hp : c.m_pretending <;> cases hd : c.m_debugSql <;>
        cases hc : c.m_countingElapsed <;>
        simp [shouldCountElapsed, hp, hd, hc]
    · simp only [run, hg]
      rw [hconn]
      cases hp : c.m_pretending <;> cases hd : c.m_debugSql <;>
        cases hc : c.m_countingElapsed <;>
        simp [shouldCountElapsed, hp, hd, hc]

/-- A `run` that throws: no log call, the counter as it was. -/
theorem run_error_facts (env : ConnectionEnv σ) (c : DatabaseConnection σ)
    (queryString : String) (bindings : List QVariant) (callback : RunCallback σ R)
    (timerElapsed : Int) (e : Exception)
    (herr : (c.run env queryString bindings callback timerElapsed).result =
      Except.error e) :
    (c.run env queryString bindings callback timerElapsed).trace.filter RunEvent.isLog =
      [] ∧
    (c.run env queryString bindings callback timerElapsed).connection.m_elapsedCounter =
      c.m_elapsedCounter := by
  obtain ⟨hlog, hconn, _⟩ := runGuarded_facts env
    { c with backend := env.reconnectIfMissingConnection c.backend } queryString bindings
    callback
  cases hg : (runGuarded env
      { c with backend := env.reconnectIfMissingConnection c.backend } queryString bindings
      callback).result with
  | ok r1 =>
    simp [run, hg] at herr
  | error e1 =>
    refine ⟨?_, ?_⟩
    · simp only [run, hg, List.filter_cons, hlog, RunEvent.isLog]
      simp
    · simp only [run, hg]
      rw [hconn]

end DatabaseConnection

namespace DatabaseConnection

variable {σ R : Type}

/-- On a pretending connection, statements that all return leave one pretend entry each,
in issue order. -/
theorem logCalls_runEach_pretending (env : ConnectionEnv σ)
    (stmts : List (Statement σ R)) (c : DatabaseConnection σ) (timerElapsed : Int)
    (hp : c.m_pretending = true)
    (hall : ∀ x ∈ runEach env c stmts timerElapsed, ∃ r, x.result = Except.ok r) :
    logCalls (runEach env c stmts timerElapsed) =
      stmts.map (fun s => RunEvent.logQueryForPretend s.queryString s.bindings) := by
  induction stmts generalizing c with
  | nil => rfl
  | cons s rest ih =>
    obtain ⟨r, hr⟩ := hall (c.run env s.queryString s.bindings s.callback timerElapsed)
      (by simp [runEach])
    obtain ⟨hlog, _, hpre, _⟩ :=
      run_ok_facts env c s.queryString s.bindings s.callback timerElapsed r hr
    simp only [runEach, logCalls, List.map_cons]
    rw [hlog, ih _ (hpre.trans hp)
      (fun x hx => hall x (by simp [runEach, hx]))]
    simp [hp]

end DatabaseConnection

theorem foldl_append_values (m : QVariantMap) (acc : List QVariant) :
    m.foldl (fun acc entry => acc ++ [entry.2]) acc = acc ++ QVariantMap.values m := by
  induction m generalizing acc with
  | nil => simp [QVariantMap.values]
  | cons e m ih => simp [QVariantMap.values, ih] at *

theorem flatValuesForInsert_eq (rows : List QVariantMap) :
    flatValuesForInsert rows = (rows.map QVariantMap.values).flatten := by
  have key : ∀ (l : List QVariantMap) (acc : List QVariant),
      l.foldl (fun flattenValues insertMap =>
        insertMap.foldl (fun acc entry => acc ++ [entry.2]) flattenValues) acc =
      acc ++ (l.map QVariantMap.values).flatten := by
    intro l
    induction l with
    | nil => simp
    | cons m l ih =>
      intro acc
      rw [List.foldl_cons, ih, foldl_append_values]
      simp
  simpa [flatValuesForInsert] using key rows []

/-- Indexing into the concatenation of blocks of one length. -/
theorem getElem?_flatten_blocks {α : Type} (k : Nat) (L : List (List α))
    (hk : ∀ row ∈ L, row.length = k) (i j : Nat) (hi : i < L.length) (hj : j < k) :
    L.flatten[i * k + j]? = (L[i]).get? j := by
  induction L generalizing i with
  | nil => simp at hi
  | cons row rest ih =>
    have hrow : row.length = k := hk row (by simp)
    cases i with
    | zero =>
      simp only [List.flatten_cons, Nat.zero_mul, Nat.zero_add, List.getElem_cons_zero]
      rw [List.getElem?_append_left (by omega)]
      simp
    | succ i =>
      have hi' : i < rest.length := by simpa using hi
      simp only [List.flatten_cons, List.getElem_cons_succ]
      rw [List.getElem?_append_right (by rw [hrow, Nat.succ_mul]; omega)]
      have : (i + 1) * k + j - row.length = i * k + j := by
        rw [hrow, Nat.succ_mul]; omega
      rw [this]
      exact ih (fun r hr => hk r (by simp [hr])) i hi'

theorem length_flatten_blocks {α : Type} (k : Nat) (L : List (List α))
    (hk : ∀ row ∈ L, row.length = k) : L.flatten.length = L.length * k := by
  induction L with
  | nil => simp
  | cons row rest ih =>
    have hrow : row.length = k := hk row (by simp)
    simp only [List.flatten_cons, List.length_append, List.length_cons, hrow,
      ih (fun r hr => hk r (by simp [hr])), Nat.succ_mul]
    omega

namespace QVariantMap

theorem value_at_key (m : QVariantMap) (hnd : (keys m).Nodup) (j : Nat)
    (hj : j < m.length) : value m (m[j]).1 = (m[j]).2 := by
  induction m generalizing j with
  | nil => simp at hj
  | cons e m ih =>
    obtain ⟨k, v⟩ := e
    have hnd' : k ∉ keys m ∧ (keys m).Nodup := by
      simpa [keys] using hnd
    cases j with
    | zero => simp [value]
    | succ j =>
      have hj' : j < m.length := by simpa using hj
      have hmem : (m[j]).1 ∈ keys m := by
        simp only [keys, List.mem_map]
        exact ⟨m[j], List.getElem_mem _, rfl⟩
      have hne : k ≠ (m[j]).1 := fun h => hnd'.1 (h ▸ hmem)
      simp only [List.getElem_cons_succ, value, if_neg hne]
      exact ih hnd'.2 j hj'

theorem nodup_of_ordered (m : QVariantMap) (h : Ordered m) : (keys m).Nodup :=
  List.Pairwise.imp (fun hlt => ne_of_lt hlt) h

end QVariantMap

namespace Builder

theorem addNestedWhereQuery_of_wheres (b query : Builder) (condition : String)
    (hsome : 0 < query.m_wheres.length)
    (hw : b.m_bindings.contains BindingType.WHERE = true) :
    ∃ b1, b.addNestedWhereQuery query condition = Outcome.returned b1 ∧
      b1.m_wheres = b.m_wheres ++
        [{ column := "", value := QVariant.invalid, comparison := "=",
           condition := condition, type := WhereType.NESTED, nestedQuery := some query,
           values := [], columnTwo := "" }] ∧
      b1.m_bindings.value BindingType.WHERE =
        b.m_bindings.value BindingType.WHERE ++ query.m_bindings.value BindingType.WHERE ∧
      (∀ t, t ≠ BindingType.WHERE → b1.m_bindings.value t = b.m_bindings.value t) ∧
      b1 = Builder.mk { b.core with m_wheres := b1.m_wheres, m_bindings := b1.m_bindings } := by
  by_cases hb : (query.getRawBindings.value BindingType.WHERE).length > 0
  · have hc : (b.appendWhere
        { column := "", value := QVariant.invalid, comparison := "=",
          condition := condition, type := WhereType.NESTED, nestedQuery := some query,
          values := [], columnTwo := "" }).m_bindings.contains BindingType.WHERE = true := hw
    refine ⟨Builder.mk { (b.appendWhere
        { column := "", value := QVariant.invalid, comparison := "=",
          condition := condition, type := WhereType.NESTED, nestedQuery := some query,
          values := [], columnTwo := "" }).core with
        m_bindings := BindingsMap.appendTo b.m_bindings BindingType.WHERE
          (query.getRawBindings.value BindingType.WHERE) }, ?_, rfl, ?_, ?_, rfl⟩
    · simp only [Builder.addNestedWhereQuery, hsome, hb,
        gt_iff_lt, decide_True, Bool.not_true, Bool.false_eq_true, if_false, if_true]
      exact Builder.addBindings_of_contains _ _ _ hc
    · exact BindingsMap.value_appendTo_same _ _ _
    · intro t ht
      exact BindingsMap.value_appendTo_other _ _ _ _ ht
  · have hnil : query.m_bindings.value BindingType.WHERE = [] :=
      List.length_eq_zero.1 (Nat.eq_zero_of_not_pos hb)
    refine ⟨b.appendWhere
        { column := "", value := QVariant.invalid, comparison := "=",
          condition := condition, type := WhereType.NESTED, nestedQuery := some query,
          values := [], columnTwo := "" }, ?_, rfl, ?_, ?_, rfl⟩
    · simp only [Builder.addNestedWhereQuery, hsome, hb,
        gt_iff_lt, decide_True, Bool.not_true, Bool.false_eq_true, if_false]
    · rw [hnil, List.append_nil]
      rfl
    · intro t _
      rfl

/-- The loop of `addArrayOfWheres` on a builder with a complete store: one BASIC node and
one WHERE binding per item, in order. -/
theorem items_loop (condition : String) (items : List WhereItem) (q : Builder)
    (hq : q.m_bindings.Complete) :
    ∃ q1, items.foldl
        (fun acc where_ =>
          acc.andThen (fun q =>
            q.where_ where_.column where_.comparison where_.value
              (if where_.condition.isEmpty then condition else where_.condition)))
        (Outcome.returned q) = Outcome.returned q1 ∧
      q1.m_wheres = q.m_wheres ++ items.map (itemNode condition) ∧
      q1.m_bindings.value BindingType.WHERE =
        q.m_bindings.value BindingType.WHERE ++ items.map (fun it => it.value) ∧
      q1.m_bindings.Complete := by
  induction items generalizing q with
  | nil => exact ⟨q, rfl, by simp, by simp, hq⟩
  | cons it rest ih =>
    have hc : q.m_bindings.contains BindingType.WHERE = true :=
      (BindingsMap.contains_of_complete _ hq _).2 (by decide)
    have hstep : (Outcome.returned q).andThen (fun q =>
        q.where_ it.column it.comparison it.value
          (if it.condition.isEmpty then condition else it.condition)) =
        Outcome.returned (Builder.mk { (q.appendWhere (itemNode condition it)).core with
          m_bindings := BindingsMap.appendTo q.m_bindings BindingType.WHERE [it.value] }) :=
      Builder.addBinding_of_contains (q.appendWhere (itemNode condition it)) it.value
        BindingType.WHERE hc
    obtain ⟨q1, h1, hw1, hv1, hc1⟩ := ih
      (Builder.mk { (q.appendWhere (itemNode condition it)).core with
        m_bindings := BindingsMap.appendTo q.m_bindings BindingType.WHERE [it.value] })
      (BindingsMap.complete_appendTo _ hq _ hc _)
    refine ⟨q1, ?_, ?_, ?_, hc1⟩
    · rw [List.foldl_cons, hstep]
      exact h1
    · rw [hw1]
      show (q.m_wheres ++ [itemNode condition it]) ++ _ = _
      simp
    · rw [hv1]
      show BindingsMap.value (BindingsMap.appendTo q.m_bindings BindingType.WHERE _)
        BindingType.WHERE ++ _ = _
      rw [BindingsMap.value_appendTo_same]
      simp

end Builder

namespace Builder

theorem onceWithColumns_facts {R : Type} (b : Builder) (columns : List String)
    (callback : Builder → Except Exception R × Builder) :
    (b.onceWithColumns columns callback).1 =
      (callback (if b.m_columns.isEmpty then Builder.mk { b.core with m_columns := columns }
        else b)).1 ∧
    (∀ r, (b.onceWithColumns columns callback).1 = Except.ok r →
      (b.onceWithColumns columns callback).2 =
        Builder.mk { (callback (if b.m_columns.isEmpty then
          Builder.mk { b.core with m_columns := columns } else b)).2.core with
          m_columns := b.m_columns }) := by
  rcases hcb : callback (if b.m_columns.isEmpty then
      Builder.mk { b.core with m_columns := columns } else b) with ⟨res, b2⟩
  cases res with
  | ok r =>
    simp only [onceWithColumns, hcb]
    exact ⟨trivial, fun _ _ => trivial⟩
  | error e =>
    simp only [onceWithColumns, hcb]
    exact ⟨trivial, fun r hr => by cases hr⟩

end Builder

theorem wrapInt32_of_isInt32 (x : Int) (h : IsInt32 x) : wrapInt32 x = x := by
  unfold IsInt32 at h
  unfold wrapInt32
  omega

/-! ## Properties of the specification -/

/-- C1 (evaluation of the code at the failing input): on a builder whose operator sets do
not hold `"likee"`, `invalidOperator("likee")` is true, and still
`where("x", "likee", 1, "and")` returns normally, with the node appended and `1` bound;
indeed on a fresh builder `where` returns normally for every grammar, operator list and
operator string. -/
theorem where_likee_is_not_rejected :
    sampleBuilder.invalidOperator "likee" = true ∧
    (sampleBuilder.where_ "x" "likee" (QVariant.int 1) "and").error = none ∧
    ((sampleBuilder.where_ "x" "likee" (QVariant.int 1) "and").state.m_wheres.map
      (fun n => (n.column, n.comparison, n.value))) = [("x", "likee", QVariant.int 1)] ∧
    (sampleBuilder.where_ "x" "likee" (QVariant.int 1) "and").state.getBindings =
      [QVariant.int 1] ∧
    (∀ (connection : ConnectionRef) (grammar : GrammarRef) (operators : List String)
      (column comparison : String) (value : QVariant) (condition : String),
      ((Builder.new connection grammar operators).where_ column comparison value
        condition).error = none) := by
  refine ⟨by decide, by decide, by decide, by decide, ?_⟩
  intro connection grammar operators column comparison value condition
  rfl

/-- C2: replay any finite sequence of where / orWhere / whereColumn / whereIn / whereNotIn /
whereNull / whereNotNull / where(callback) calls (callbacks made of such calls; calls of
having / orHaving may be mixed in) on a fresh builder, no argument being an Expression:
every call returns, and the WHERE bucket of the result is, in order, the concatenation of
the values its WHERE nodes carry (`[value]` for a basic node, the list of an in / not-in
node, the child's sequence for a nested node, nothing for the other kinds). -/
theorem where_bucket_matches_where_nodes (connection : ConnectionRef) (grammar : GrammarRef)
    (operators : List String) (calls : List Call)
    (hno : Call.allNoExpression calls = true) :
    ∃ b, Call.runAll calls (Builder.new connection grammar operators) = Outcome.returned b ∧
      b.m_bindings.value BindingType.WHERE = b.carriedValues := by
  obtain ⟨b, hb, hs⟩ := Call.runAll_inSync calls hno _
    (Builder.inSync_new connection grammar operators)
  exact ⟨b, hb, hs.2⟩

/-- C2 at a concrete sequence with a nested group inside a nested group. -/
theorem where_bucket_matches_where_nodes_witness :
    ∃ b, Call.runAll
        [Call.where_ "a" "=" (QVariant.int 1) "and",
          Call.where_callback
            [Call.whereIn "b" [QVariant.int 2, QVariant.int 3] "and",
              Call.whereNull ["c"] "or",
              Call.where_callback [Call.orWhere "d" "<" (QVariant.int 4)] "and"] "or",
          Call.whereColumn "e" "=" "f" "and",
          Call.whereNotIn "g" [QVariant.string "x"] "and"]
        sampleBuilder = Outcome.returned b ∧
      b.m_bindings.value BindingType.WHERE = b.carriedValues ∧
      b.carriedValues = [QVariant.int 1, QVariant.int 2, QVariant.int 3, QVariant.int 4,
        QVariant.string "x"] := by
  obtain ⟨b, hb, hs⟩ := where_bucket_matches_where_nodes { databaseName := "tinyorm_test" }
    sampleGrammar sampleOperators
    [Call.where_ "a" "=" (QVariant.int 1) "and",
      Call.where_callback
        [Call.whereIn "b" [QVariant.int 2, QVariant.int 3] "and",
          Call.whereNull ["c"] "or",
          Call.where_callback [Call.orWhere "d" "<" (QVariant.int 4)] "and"] "or",
      Call.whereColumn "e" "=" "f" "and",
      Call.whereNotIn "g" [QVariant.string "x"] "and"] (by decide)
  refine ⟨b, hb, hs, ?_⟩
  have hb' := congrArg Outcome.state hb
  simp only [Outcome.state] at hb'
  rw [← hb']
  decide

/-- C3 (evaluation of the code at the failing inputs): `where`, `orWhere`, `having` and
`orHaving` called with a value that is an `Expression` put that Expression into the WHERE,
respectively HAVING, bucket, and `getBindings()` hands it out; `whereIn`, which passes its
values through `cleanBindings`, does not. -/
theorem where_and_having_bind_an_expression :
    (sampleBuilder.where_ "created_at" "<" (QVariant.expression (QVariant.string "now()"))
      "and").state.getBindings = [QVariant.expression (QVariant.string "now()")] ∧
    (sampleBuilder.orWhere "created_at" "<"
      (QVariant.expression (QVariant.string "now()"))).state.m_bindings.value
        BindingType.WHERE = [QVariant.expression (QVariant.string "now()")] ∧
    (sampleBuilder.having "total" ">" (QVariant.expression (QVariant.string "avg(x)"))
      "and").state.m_bindings.value BindingType.HAVING =
        [QVariant.expression (QVariant.string "avg(x)")] ∧
    (sampleBuilder.orHaving "total" ">"
      (QVariant.expression (QVariant.string "avg(x)"))).state.getBindings =
        [QVariant.expression (QVariant.string "avg(x)")] ∧
    (sampleBuilder.whereIn "id"
      [QVariant.expression (QVariant.string "now()"), QVariant.int 1] "and"
      false).state.getBindings = [QVariant.int 1] := by
  decide

/-- C4: outside a transaction, when the first invocation of the callback throws a
`QueryError` that `causedByLostConnection` accepts, `run` calls `reconnect()` exactly once
and then invokes the callback exactly once more with the same SQL and bindings (the trace
without its log entry is: connectivity check, callback, reconnect, callback); what the second
invocation returns or throws is what `run` returns or throws, so there is no third
invocation. -/
theorem run_retries_once_on_lost_connection {σ R : Type} (env : ConnectionEnv σ)
    (c : DatabaseConnection σ) (queryString : String) (bindings : List QVariant)
    (callback : RunCallback σ R) (timerElapsed : Int) (e : Exception)
    (hTx : c.inTransaction = false)
    (hFirst : (callback (env.reconnectIfMissingConnection c.backend) queryString bindings).1 =
      Except.error e)
    (hQuery : e.isQueryError = true)
    (hLost : env.causedByLostConnection e = true) :
    ((c.run env queryString bindings callback timerElapsed).trace.filter
        (fun ev => !ev.isLog) =
      [RunEvent.reconnectIfMissingConnection, RunEvent.callback queryString bindings,
        RunEvent.reconnect, RunEvent.callback queryString bindings]) ∧
    ((c.run env queryString bindings callback timerElapsed).trace.filter
        RunEvent.isReconnect).length = 1 ∧
    ((c.run env queryString bindings callback timerElapsed).trace.filter
        RunEvent.isCallback).length = 2 ∧
    (c.run env queryString bindings callback timerElapsed).result =
      (callback (env.reconnect
        (callback (env.reconnectIfMissingConnection c.backend) queryString bindings).2)
        queryString bindings).1 := by
  have hTx' : ¬ (0 < c.transactionDepth) := by
    simpa [DatabaseConnection.inTransaction] using hTx
  cases hsecond : (callback (env.reconnect
      (callback (env.reconnectIfMissingConnection c.backend) queryString bindings).2)
      queryString bindings).1 with
  | error e2 =>
    simp [DatabaseConnection.run, DatabaseConnection.runGuarded,
      DatabaseConnection.runQueryCallback, DatabaseConnection.handleQueryException,
      DatabaseConnection.tryAgainIfCausedByLostConnection, DatabaseConnection.inTransaction,
      hFirst, hQuery, hLost, hTx', hsecond, RunEvent.isLog, RunEvent.isReconnect,
      RunEvent.isCallback]
  | ok r =>
    simp only [DatabaseConnection.run, DatabaseConnection.runGuarded,
      DatabaseConnection.runQueryCallback, DatabaseConnection.handleQueryException,
      DatabaseConnection.tryAgainIfCausedByLostConnection, DatabaseConnection.inTransaction,
      hFirst, hQuery, hLost, hTx', hsecond, decide_False, Bool.false_eq_true, if_false,
      if_true]
    split_ifs <;>
      simp [RunEvent.isLog, RunEvent.isReconnect, RunEvent.isCallback]

/-- C4 at a concrete connection: the callback fails with "server has gone away" until the
backend is reconnected; `run` reconnects once, calls it a second time and returns its
result. -/
theorem run_retries_once_on_lost_connection_witness :
    (sampleConnection.run sampleEnv "select 1" [QVariant.int 1] sampleFlakyCallback 7).result =
      Except.ok 1 ∧
    ((sampleConnection.run sampleEnv "select 1" [QVariant.int 1] sampleFlakyCallback
      7).trace.filter RunEvent.isReconnect).length = 1 ∧
    (sampleConnection.run sampleEnv "select 1" [QVariant.int 1] sampleDeadCallback 7).result =
      Except.error (Exception.QueryError "server has gone away") ∧
    ((sampleConnection.run sampleEnv "select 1" [QVariant.int 1] sampleDeadCallback
      7).trace.filter RunEvent.isCallback).length = 2 := by
  have h1 := run_retries_once_on_lost_connection sampleEnv sampleConnection "select 1"
    [QVariant.int 1] sampleFlakyCallback 7 (Exception.QueryError "server has gone away")
    rfl rfl rfl (by decide)
  have h2 := run_retries_once_on_lost_connection sampleEnv sampleConnection "select 1"
    [QVariant.int 1] sampleDeadCallback 7 (Exception.QueryError "server has gone away")
    rfl rfl rfl (by decide)
  exact ⟨h1.2.2.2.trans rfl, h1.2.1, h2.2.2.2.trans rfl, h2.2.2.1⟩

/-- C5: inside a transaction (depth at least one), when the callback throws a `QueryError`,
`run` rethrows that same error; the callback has been invoked exactly once and `reconnect()`
is not called, whatever `causedByLostConnection` says of the error. -/
theorem run_in_transaction_rethrows {σ R : Type} (env : ConnectionEnv σ)
    (c : DatabaseConnection σ) (queryString : String) (bindings : List QVariant)
    (callback : RunCallback σ R) (timerElapsed : Int) (e : Exception)
    (hTx : c.inTransaction = true)
    (hFirst : (callback (env.reconnectIfMissingConnection c.backend) queryString bindings).1 =
      Except.error e)
    (hQuery : e.isQueryError = true) :
    (c.run env queryString bindings callback timerElapsed).result = Except.error e ∧
    (c.run env queryString bindings callback timerElapsed).trace =
      [RunEvent.reconnectIfMissingConnection, RunEvent.callback queryString bindings] ∧
    ((c.run env queryString bindings callback timerElapsed).trace.filter
        RunEvent.isCallback).length = 1 ∧
    (c.run env queryString bindings callback timerElapsed).trace.filter
        RunEvent.isReconnect = [] := by
  have hTx' : 0 < c.transactionDepth := by
    simpa [DatabaseConnection.inTransaction] using hTx
  simp [DatabaseConnection.run, DatabaseConnection.runGuarded,
    DatabaseConnection.runQueryCallback, DatabaseConnection.handleQueryException,
    DatabaseConnection.inTransaction, hFirst, hQuery, hTx', RunEvent.isReconnect,
    RunEvent.isCallback]

/-- C5 at a concrete connection at depth 2 whose callback fails with a lost-connection
error. -/
theorem run_in_transaction_rethrows_witness :
    ({ sampleConnection with transactionDepth := 2 }.run sampleEnv "select 1" []
      sampleDeadCallback 7).result =
      Except.error (Exception.QueryError "server has gone away") ∧
    ({ sampleConnection with transactionDepth := 2 }.run sampleEnv "select 1" []
      sampleDeadCallback 7).trace =
      [RunEvent.reconnectIfMissingConnection, RunEvent.callback "select 1" []] := by
  have h := run_in_transaction_rethrows sampleEnv
    { sampleConnection with transactionDepth := 2 } "select 1" [] sampleDeadCallback 7
    (Exception.QueryError "server has gone away") rfl rfl rfl
  exact ⟨h.1, h.2.1⟩

/-- C6: outside a transaction, when the callback throws a `QueryError` that
`causedByLostConnection` does not accept, `run` rethrows that same error; the callback has
been invoked exactly once and the error handling does not call `reconnect()`. -/
theorem run_other_query_error_propagates {σ R : Type} (env : ConnectionEnv σ)
    (c : DatabaseConnection σ) (queryString : String) (bindings : List QVariant)
    (callback : RunCallback σ R) (timerElapsed : Int) (e : Exception)
    (hTx : c.inTransaction = false)
    (hFirst : (callback (env.reconnectIfMissingConnection c.backend) queryString bindings).1 =
      Except.error e)
    (hQuery : e.isQueryError = true)
    (hNotLost : env.causedByLostConnection e = false) :
    (c.run env queryString bindings callback timerElapsed).result = Except.error e ∧
    (c.run env queryString bindings callback timerElapsed).trace =
      [RunEvent.reconnectIfMissingConnection, RunEvent.callback queryString bindings] ∧
    ((c.run env queryString bindings callback timerElapsed).trace.filter
        RunEvent.isCallback).length = 1 ∧
    (c.run env queryString bindings callback timerElapsed).trace.filter
        RunEvent.isReconnect = [] := by
  have hTx' : ¬ (0 < c.transactionDepth) := by
    simpa [DatabaseConnection.inTransaction] using hTx
  simp [DatabaseConnection.run, DatabaseConnection.runGuarded,
    DatabaseConnection.runQueryCallback, DatabaseConnection.handleQueryException,
    DatabaseConnection.tryAgainIfCausedByLostConnection, DatabaseConnection.inTransaction,
    hFirst, hQuery, hTx', hNotLost, RunEvent.isReconnect, RunEvent.isCallback]

/-- C6 at a concrete connection whose callback fails with a syntax error. -/
theorem run_other_query_error_propagates_witness :
    (sampleConnection.run sampleEnv "select 1" [] sampleSyntaxErrorCallback 7).result =
      Except.error (Exception.QueryError "syntax error near FROM") ∧
    (sampleConnection.run sampleEnv "select 1" [] sampleSyntaxErrorCallback 7).trace =
      [RunEvent.reconnectIfMissingConnection, RunEvent.callback "select 1" []] := by
  have h := run_other_query_error_propagates sampleEnv sampleConnection "select 1" []
    sampleSyntaxErrorCallback 7 (Exception.QueryError "syntax error near FROM")
    rfl rfl rfl (by decide)
  exact ⟨h.1, h.2.1⟩

/-- C7: on every builder (whose store holds the eight buckets it was constructed with)
`getBindings()` is the concatenation of the buckets in the order select, from, join, where,
groupBy, having, order, union, each bucket in insertion order; its length is the sum of the
bucket sizes; and adding two values of different categories in either order gives the same
flattened list. -/
theorem getBindings_fixed_category_order (b : Builder) (h : b.m_bindings.Complete) :
    b.getBindings =
      b.m_bindings.value BindingType.SELECT ++ b.m_bindings.value BindingType.FROM ++
        b.m_bindings.value BindingType.JOIN ++ b.m_bindings.value BindingType.WHERE ++
        b.m_bindings.value BindingType.GROUPBY ++ b.m_bindings.value BindingType.HAVING ++
        b.m_bindings.value BindingType.ORDER ++ b.m_bindings.value BindingType.UNION ∧
    b.getBindings.length =
      (b.m_bindings.value BindingType.SELECT).length +
        (b.m_bindings.value BindingType.FROM).length +
        (b.m_bindings.value BindingType.JOIN).length +
        (b.m_bindings.value BindingType.WHERE).length +
        (b.m_bindings.value BindingType.GROUPBY).length +
        (b.m_bindings.value BindingType.HAVING).length +
        (b.m_bindings.value BindingType.ORDER).length +
        (b.m_bindings.value BindingType.UNION).length ∧
    (∀ (v1 v2 : QVariant) (t1 t2 : BindingType), t1 ≠ t2 →
      b.m_bindings.contains t1 = true → b.m_bindings.contains t2 = true →
      ((b.addBinding v1 t1).andThen (fun x => x.addBinding v2 t2)).state.getBindings =
        ((b.addBinding v2 t2).andThen (fun x => x.addBinding v1 t1)).state.getBindings) := by
  refine ⟨b.getBindings_of_complete h, ?_, ?_⟩
  · rw [b.getBindings_of_complete h]
    simp only [List.length_append]
  · intro v1 v2 t1 t2 hne h1 h2
    have c1 : (Builder.mk { b.core with
        m_bindings := b.m_bindings.appendTo t1 [v1] }).m_bindings.contains t2 = true := by
      show BindingsMap.contains (b.m_bindings.appendTo t1 [v1]) t2 = true
      rw [BindingsMap.contains_appendTo _ h _ _ h1]; exact h2
    have c2 : (Builder.mk { b.core with
        m_bindings := b.m_bindings.appendTo t2 [v2] }).m_bindings.contains t1 = true := by
      show BindingsMap.contains (b.m_bindings.appendTo t2 [v2]) t1 = true
      rw [BindingsMap.contains_appendTo _ h _ _ h2]; exact h1
    rw [Builder.addBinding_of_contains b v1 t1 h1, Builder.addBinding_of_contains b v2 t2 h2]
    simp only [Outcome.andThen]
    rw [Builder.addBinding_of_contains _ v2 t2 c1, Builder.addBinding_of_contains _ v1 t1 c2]
    have e := BindingsMap.appendTo_comm b.m_bindings h t1 t2 h1 h2 hne [v1] [v2]
    simp only [Outcome.state]
    unfold Builder.getBindings
    show List.foldl _ [] (BindingsMap.appendTo (BindingsMap.appendTo b.m_bindings t1 [v1])
        t2 [v2]) =
      List.foldl _ [] (BindingsMap.appendTo (BindingsMap.appendTo b.m_bindings t2 [v2])
        t1 [v1])
    rw [e]

/-- C7 at a concrete builder: `10` goes to WHERE first, `20` to SELECT second, and the
flattened list starts with the SELECT value. -/
theorem getBindings_fixed_category_order_witness :
    ((sampleBuilder.addBinding (QVariant.int 10) BindingType.WHERE).andThen
      (fun x => x.addBinding (QVariant.int 20) BindingType.SELECT)).state.getBindings =
      [QVariant.int 20, QVariant.int 10] ∧
    sampleBuilder.getBindings.length = 0 := by
  have h := getBindings_fixed_category_order sampleBuilder (by decide)
  refine ⟨?_, ?_⟩
  · rw [h.2.2 (QVariant.int 10) (QVariant.int 20) BindingType.WHERE BindingType.SELECT
      (by decide) (by decide) (by decide)]
    decide
  · rw [h.2.1]; decide

/-- C8: `addBinding(value, category)` on a category the builder's store knows returns with
the value appended at the end of that bucket, every other bucket as it was, the store still
holding its eight buckets, and every member other than the store unchanged; on a category
the store does not know it throws "Invalid binding type: <category>" and leaves the builder
as it was. -/
theorem addBinding_known_and_unknown_category (b : Builder) (value : QVariant)
    (category : BindingType) :
    (b.m_bindings.contains category = true →
      ∃ b1, b.addBinding value category = Outcome.returned b1 ∧
        b1.m_bindings.value category = b.m_bindings.value category ++ [value] ∧
        (∀ t, t ≠ category → b1.m_bindings.value t = b.m_bindings.value t) ∧
        (b.m_bindings.Complete → b1.m_bindings.Complete) ∧
        b1 = Builder.mk { b.core with m_bindings := b1.m_bindings }) ∧
    (b.m_bindings.contains category = false →
      b.addBinding value category =
        Outcome.threw
          (Exception.RuntimeError ("Invalid binding type: " ++ toString category)) b) := by
  refine ⟨fun hc => ?_, fun hc => Builder.addBinding_of_not_contains b value category hc⟩
  refine ⟨_, Builder.addBinding_of_contains b value category hc, ?_, ?_, ?_, rfl⟩
  · exact BindingsMap.value_appendTo_same _ _ _
  · intro t ht
    exact BindingsMap.value_appendTo_other _ _ _ _ ht
  · intro hcomp
    exact BindingsMap.complete_appendTo _ hcomp _ hc _

/-- C8 at a concrete builder: category WHERE is known and receives the value, category 42
is not known and is refused with the builder untouched. -/
theorem addBinding_known_and_unknown_category_witness :
    (∃ b1, sampleBuilder.addBinding (QVariant.int 5) BindingType.WHERE = Outcome.returned b1 ∧
      b1.m_bindings.value BindingType.WHERE = [QVariant.int 5]) ∧
    (sampleBuilder.addBinding (QVariant.int 5) 42).error =
      some (Exception.RuntimeError ("Invalid binding type: " ++ toString (42 : Int))) ∧
    (sampleBuilder.addBinding (QVariant.int 5) 42).state.getBindings = [] := by
  have h := addBinding_known_and_unknown_category sampleBuilder (QVariant.int 5)
  obtain ⟨b1, hb, hv, _⟩ := (h BindingType.WHERE).1 (by decide)
  have hu := (h 42).2 (by decide)
  refine ⟨⟨b1, hb, ?_⟩, ?_, ?_⟩
  · rw [hv]; decide
  · rw [hu]; rfl
  · rw [hu]; decide

/-- C9: `where(column, op, value, connector)` with an allowed `op`, on a builder whose
store has its WHERE bucket, returns the builder with exactly the node
`(column, value, op, connector, BASIC)` appended at the end of the WHERE list and `value`
appended at the end of the WHERE bucket; every other bucket and every member other than the
WHERE list and the store (columns, from, joins, groups, havings, orders, limit, offset,
lock) are unchanged. -/
theorem where_appends_node_and_binding (b : Builder) (column comparison : String)
    (value : QVariant) (condition : String)
    (_hop : b.invalidOperator comparison = false)
    (hw : b.m_bindings.contains BindingType.WHERE = true) :
    ∃ b1, b.where_ column comparison value condition = Outcome.returned b1 ∧
      b1.m_wheres = b.m_wheres ++
        [{ column := column, value := value, comparison := comparison,
           condition := condition, type := WhereType.BASIC, nestedQuery := none,
           values := [], columnTwo := "" }] ∧
      b1.m_bindings.value BindingType.WHERE =
        b.m_bindings.value BindingType.WHERE ++ [value] ∧
      (∀ t, t ≠ BindingType.WHERE → b1.m_bindings.value t = b.m_bindings.value t) ∧
      (b.m_bindings.Complete → b1.m_bindings.Complete) ∧
      b1 = Builder.mk { b.core with m_wheres := b1.m_wheres, m_bindings := b1.m_bindings } := by
  refine ⟨_, Builder.addBinding_of_contains _ value BindingType.WHERE hw, rfl, ?_, ?_, ?_, rfl⟩
  · exact BindingsMap.value_appendTo_same _ _ _
  · intro t ht
    exact BindingsMap.value_appendTo_other _ _ _ _ ht
  · intro hcomp
    exact BindingsMap.complete_appendTo _ hcomp _ hw _

/-- C9 at a concrete builder: `where("votes", ">=", 100, "and")`. -/
theorem where_appends_node_and_binding_witness :
    ∃ b1, sampleBuilder.where_ "votes" ">=" (QVariant.int 100) "and" = Outcome.returned b1 ∧
      b1.m_wheres.length = 1 ∧
      b1.m_bindings.value BindingType.WHERE = [QVariant.int 100] ∧
      b1.m_columns = [] := by
  obtain ⟨b1, hb, hw, hv, _, _, hrest⟩ :=
    where_appends_node_and_binding sampleBuilder "votes" ">=" (QVariant.int 100) "and"
      (by decide) (by decide)
  refine ⟨b1, hb, ?_, ?_, ?_⟩
  · rw [hw]; rfl
  · rw [hv]; decide
  · rw [hrest]; rfl

/-- C10: when the callback hands back a child without WHERE nodes, `where(callback,
connector)` returns the parent exactly as it was: no NESTED node, no binding entry, no
other member touched (and when such a callback throws, the parent is as it was, too). -/
theorem where_callback_without_predicates_is_noop (b : Builder)
    (callback : Builder → Outcome) (condition : String)
    (hnone : (callback b.forNestedWhere).state.m_wheres = []) :
    (b.where_callback callback condition).state = b ∧
    ((callback b.forNestedWhere).error = none →
      b.where_callback callback condition = Outcome.returned b) := by
  cases hcb : callback b.forNestedWhere with
  | threw e q => simp [Builder.where_callback, hcb, Outcome.state, Outcome.error]
  | returned q =>
    rw [hcb] at hnone
    simp only [Outcome.state] at hnone
    simp [Builder.where_callback, hcb, Builder.addNestedWhereQuery, hnone, Outcome.state]

/-- C10 at a concrete parent that already has a predicate and a binding, with a callback
that only calls `whereNull({})`. -/
theorem where_callback_without_predicates_is_noop_witness :
    ((sampleBuilder.where_ "a" "=" (QVariant.int 1) "and").state.where_callback
      (fun q => q.whereNull [] "and" false) "or").state.getBindings = [QVariant.int 1] ∧
    ((sampleBuilder.where_ "a" "=" (QVariant.int 1) "and").state.where_callback
      (fun q => q.whereNull [] "and" false) "or").state.m_wheres.length = 1 := by
  have h := where_callback_without_predicates_is_noop
    (sampleBuilder.where_ "a" "=" (QVariant.int 1) "and").state
    (fun q => q.whereNull [] "and" false) "or" rfl
  rw [h.1]
  exact ⟨by decide, by decide⟩

/-- C11: when the callback returns the child with at least one WHERE node (and the parent's
store has its WHERE bucket), `where(callback, connector)` has run the callback on a fresh
child that has the parent's from target and nothing else (no columns, joins, WHERE nodes,
groups, havings, orders, bindings), and returns the parent with exactly one node of kind
NESTED, carrying the connector and owning that child, appended to the WHERE list, and the
child's WHERE bucket appended, in the child's order, to the parent's WHERE bucket; every
other bucket and every other member of the parent is unchanged. -/
theorem where_callback_appends_nested_node (b : Builder) (callback : Builder → Outcome)
    (condition : String) (query : Builder)
    (hcb : callback b.forNestedWhere = Outcome.returned query)
    (hsome : 0 < query.m_wheres.length)
    (hw : b.m_bindings.contains BindingType.WHERE = true) :
    (b.forNestedWhere.m_from = b.m_from ∧ b.forNestedWhere.m_columns = [] ∧
      b.forNestedWhere.m_joins.length = 0 ∧ b.forNestedWhere.m_wheres.length = 0 ∧
      b.forNestedWhere.m_groups = [] ∧ b.forNestedWhere.m_havings = [] ∧
      b.forNestedWhere.m_orders = [] ∧ b.forNestedWhere.getBindings = []) ∧
    ∃ b1, b.where_callback callback condition = Outcome.returned b1 ∧
      b1.m_wheres = b.m_wheres ++
        [{ column := "", value := QVariant.invalid, comparison := "=",
           condition := condition, type := WhereType.NESTED, nestedQuery := some query,
           values := [], columnTwo := "" }] ∧
      b1.m_bindings.value BindingType.WHERE =
        b.m_bindings.value BindingType.WHERE ++ query.m_bindings.value BindingType.WHERE ∧
      (∀ t, t ≠ BindingType.WHERE → b1.m_bindings.value t = b.m_bindings.value t) ∧
      (b.m_bindings.Complete → b1.m_bindings.Complete) ∧
      b1 = Builder.mk { b.core with m_wheres := b1.m_wheres, m_bindings := b1.m_bindings } := by
  refine ⟨⟨rfl, rfl, rfl, rfl, rfl, rfl, rfl, rfl⟩, ?_⟩
  by_cases hb : (query.getRawBindings.value BindingType.WHERE).length > 0
  · have hc : (b.appendWhere
        { column := "", value := QVariant.invalid, comparison := "=",
          condition := condition, type := WhereType.NESTED, nestedQuery := some query,
          values := [], columnTwo := "" }).m_bindings.contains BindingType.WHERE = true := hw
    refine ⟨Builder.mk { (b.appendWhere
        { column := "", value := QVariant.invalid, comparison := "=",
          condition := condition, type := WhereType.NESTED, nestedQuery := some query,
          values := [], columnTwo := "" }).core with
        m_bindings := BindingsMap.appendTo b.m_bindings BindingType.WHERE
          (query.getRawBindings.value BindingType.WHERE) }, ?_, rfl, ?_, ?_, ?_, rfl⟩
    · simp only [Builder.where_callback, hcb, Builder.addNestedWhereQuery, hsome, hb,
        gt_iff_lt, decide_True, Bool.not_true, Bool.false_eq_true, if_false, if_true]
      exact Builder.addBindings_of_contains _ _ _ hc
    · exact BindingsMap.value_appendTo_same _ _ _
    · intro t ht
      exact BindingsMap.value_appendTo_other _ _ _ _ ht
    · intro hcomp
      exact BindingsMap.complete_appendTo _ hcomp _ hw _
  · have hnil : query.m_bindings.value BindingType.WHERE = [] :=
      List.length_eq_zero.1 (Nat.eq_zero_of_not_pos hb)
    refine ⟨b.appendWhere
        { column := "", value := QVariant.invalid, comparison := "=",
          condition := condition, type := WhereType.NESTED, nestedQuery := some query,
          values := [], columnTwo := "" }, ?_, rfl, ?_, ?_, ?_, rfl⟩
    · simp only [Builder.where_callback, hcb, Builder.addNestedWhereQuery, hsome, hb,
        gt_iff_lt, decide_True, Bool.not_true, Bool.false_eq_true, if_false]
    · rw [hnil, List.append_nil]
      rfl
    · intro t _
      rfl
    · intro hcomp
      exact hcomp

/-- C11 at a concrete parent: the callback adds `votes > 100` and `name is null`. -/
theorem where_callback_appends_nested_node_witness :
    ∃ b1, sampleBuilder.where_callback
        (fun q => (q.where_ "votes" ">" (QVariant.int 100) "and").andThen
          (fun q1 => q1.whereNull ["name"] "or" false)) "or" = Outcome.returned b1 ∧
      b1.m_wheres.map (fun n => (n.type, n.condition)) = [(WhereType.NESTED, "or")] ∧
      b1.m_bindings.value BindingType.WHERE = [QVariant.int 100] := by
  obtain ⟨_, b1, hb, hwh, hv, _⟩ := where_callback_appends_nested_node sampleBuilder
    (fun q => (q.where_ "votes" ">" (QVariant.int 100) "and").andThen
      (fun q1 => q1.whereNull ["name"] "or" false)) "or"
    ((sampleBuilder.forNestedWhere.where_ "votes" ">" (QVariant.int 100) "and").andThen
      (fun q1 => q1.whereNull ["name"] "or" false)).state
    rfl (by decide) (by decide)
  refine ⟨b1, hb, ?_, ?_⟩
  · rw [hwh]; rfl
  · rw [hv]; decide

/-- C12: `whereIn(column, vs, connector)` (and `whereNotIn`, which is `whereIn` with the
negation flag) on a builder whose store has its WHERE bucket appends one node of kind IN
(NOT_IN) that keeps the whole list `vs`, and appends to the WHERE bucket exactly the members
of `vs` that are not Expressions, in their order, so the bucket grows by their number; and
`from("users").whereIn("id", {1, 2, 3})` has the WHERE bindings `[1, 2, 3]`. -/
theorem whereIn_binds_non_expressions (b : Builder) (column : String) (vs : List QVariant)
    (condition : String) (nope : Bool)
    (hw : b.m_bindings.contains BindingType.WHERE = true) :
    (∃ b1, b.whereIn column vs condition nope = Outcome.returned b1 ∧
      b1.m_wheres = b.m_wheres ++
        [{ column := column, value := QVariant.invalid, comparison := "=",
           condition := condition,
           type := if nope then WhereType.NOT_IN else WhereType.IN_,
           nestedQuery := none, values := vs, columnTwo := "" }] ∧
      b1.m_bindings.value BindingType.WHERE =
        b.m_bindings.value BindingType.WHERE ++
          vs.filter (fun v => !v.canConvertExpression) ∧
      (b1.m_bindings.value BindingType.WHERE).length =
        (b.m_bindings.value BindingType.WHERE).length +
          vs.countP (fun v => !v.canConvertExpression) ∧
      (∀ t, t ≠ BindingType.WHERE → b1.m_bindings.value t = b.m_bindings.value t) ∧
      b1 = Builder.mk { b.core with m_wheres := b1.m_wheres, m_bindings := b1.m_bindings }) ∧
    b.whereNotIn column vs condition = b.whereIn column vs condition true ∧
    ((sampleBuilder.from_ "users" "").andThen
      (fun q => q.whereIn "id" [QVariant.int 1, QVariant.int 2, QVariant.int 3] "and"
        false)).state.m_bindings.value BindingType.WHERE =
      [QVariant.int 1, QVariant.int 2, QVariant.int 3] := by
  refine ⟨?_, rfl, by decide⟩
  refine ⟨_, Builder.addBindings_of_contains _ _ _ hw, rfl, ?_, ?_, ?_, rfl⟩
  · show BindingsMap.value (BindingsMap.appendTo b.m_bindings BindingType.WHERE
      (Builder.cleanBindings vs)) BindingType.WHERE = _
    rw [BindingsMap.value_appendTo_same, Builder.cleanBindings_eq_filter]
  · show (BindingsMap.value (BindingsMap.appendTo b.m_bindings BindingType.WHERE
      (Builder.cleanBindings vs)) BindingType.WHERE).length = _
    rw [BindingsMap.value_appendTo_same, Builder.cleanBindings_eq_filter,
      List.length_append, List.countP_eq_length_filter]
  · intro t ht
    exact BindingsMap.value_appendTo_other _ _ _ _ ht

/-- C12 at a concrete list with an Expression in the middle: the node keeps three values, the
bucket receives two. -/
theorem whereIn_binds_non_expressions_witness :
    ∃ b1, sampleBuilder.whereIn "id"
        [QVariant.int 1, QVariant.expression (QVariant.string "now()"), QVariant.int 3]
        "and" false = Outcome.returned b1 ∧
      b1.m_wheres.map (fun n => (n.type, n.values.length)) = [(WhereType.IN_, 3)] ∧
      b1.m_bindings.value BindingType.WHERE = [QVariant.int 1, QVariant.int 3] := by
  obtain ⟨b1, hb, hwh, hv, _⟩ := (whereIn_binds_non_expressions sampleBuilder "id"
    [QVariant.int 1, QVariant.expression (QVariant.string "now()"), QVariant.int 3]
    "and" false (by decide)).1
  refine ⟨b1, hb, ?_, ?_⟩
  · rw [hwh]; rfl
  · rw [hv]; decide

/-- C13: `cleanBindings(bs)` is the sublist of `bs` that keeps exactly the values that are
not Expressions, in their order: it holds no Expression, is a sublist of `bs` and so never
longer, is `bs` itself when `bs` holds no Expression, and cleaning twice changes nothing. -/
theorem cleanBindings_is_the_non_expression_sublist (bs : List QVariant) :
    Builder.cleanBindings bs = bs.filter (fun v => !v.canConvertExpression) ∧
    (∀ v ∈ Builder.cleanBindings bs, v.canConvertExpression = false) ∧
    (∀ v ∈ bs, v.canConvertExpression = false → v ∈ Builder.cleanBindings bs) ∧
    List.Sublist (Builder.cleanBindings bs) bs ∧
    (Builder.cleanBindings bs).length ≤ bs.length ∧
    ((∀ v ∈ bs, v.canConvertExpression = false) → Builder.cleanBindings bs = bs) ∧
    Builder.cleanBindings (Builder.cleanBindings bs) = Builder.cleanBindings bs := by
  have hf := Builder.cleanBindings_eq_filter bs
  refine ⟨hf, ?_, ?_, ?_, ?_, ?_, ?_⟩
  · intro v hv
    rw [hf] at hv
    simpa using (List.mem_filter.1 hv).2
  · intro v hv hx
    rw [hf]
    exact List.mem_filter.2 ⟨hv, by simp [hx]⟩
  · rw [hf]
    exact List.filter_sublist bs
  · rw [hf]
    exact List.length_filter_le _ bs
  · intro hall
    rw [hf]
    exact List.filter_eq_self.2 (fun v hv => by simp [hall v hv])
  · rw [Builder.cleanBindings_eq_filter (Builder.cleanBindings bs), hf, List.filter_filter]
    simp

/-- C13 at a concrete list: the Expression is dropped, the order of the others is kept, and
a list without Expressions is returned as it is. -/
theorem cleanBindings_is_the_non_expression_sublist_witness :
    Builder.cleanBindings
      [QVariant.int 1, QVariant.expression (QVariant.string "now()"), QVariant.string "a"] =
      [QVariant.int 1, QVariant.string "a"] ∧
    Builder.cleanBindings [QVariant.int 1, QVariant.string "a"] =
      [QVariant.int 1, QVariant.string "a"] := by
  refine ⟨?_, ?_⟩
  · rw [(cleanBindings_is_the_non_expression_sublist _).1]
    decide
  · exact (cleanBindings_is_the_non_expression_sublist _).2.2.2.2.2.1 (by decide)

/-- C14: `orderBy(column, d)` throws if and only if the lower-cased `d` is neither `"asc"`
nor `"desc"`; when it does not throw it returns the builder with exactly the item
`(column, lower-cased d)` appended at the end of the order list and nothing else changed
(no binding bucket in particular); when it throws the builder is as it was. -/
theorem orderBy_checks_direction (b : Builder) (column d : String) :
    ((b.orderBy column d).error ≠ none ↔ (toLower d ≠ "asc" ∧ toLower d ≠ "desc")) ∧
    ((b.orderBy column d).error = none →
      b.orderBy column d = Outcome.returned (Builder.mk { b.core with
        m_orders := b.m_orders ++ [{ column := column, direction := toLower d }] })) ∧
    ((b.orderBy column d).error ≠ none → (b.orderBy column d).state = b) ∧
    (b.orderBy column d).state.m_bindings = b.m_bindings := by
  by_cases h1 : toLower d = "asc"
  · simp [Builder.orderBy, h1, Outcome.error, Outcome.state, Builder.m_bindings,
      Builder.core]
  · by_cases h2 : toLower d = "desc"
    · simp [Builder.orderBy, h2, Outcome.error, Outcome.state, Builder.m_bindings,
        Builder.core]
    · simp [Builder.orderBy, h1, h2, Outcome.error, Outcome.state]

/-- C14 at concrete directions: `"DESC"` is accepted and stored as `"desc"`, `"sideways"`
is refused and the builder keeps its empty order list. -/
theorem orderBy_checks_direction_witness :
    (sampleBuilder.orderBy "name" "DESC").state.m_orders =
      [{ column := "name", direction := "desc" }] ∧
    (sampleBuilder.orderBy "name" "sideways").state.m_orders = [] := by
  have h1 := (orderBy_checks_direction sampleBuilder "name" "DESC").2.1 (by decide)
  have h2 := (orderBy_checks_direction sampleBuilder "name" "sideways").2.2.1 (by decide)
  rw [h1, h2]
  exact ⟨by decide, by decide⟩

/-- C15, as stated, fails: the direction `"sideways"` is neither `"asc"` nor `"desc"` up to
case, and the exception `orderBy` throws for it is a `RuntimeError`, which is not of the
invalid-argument kind. -/
theorem orderBy_error_is_not_invalid_argument :
    toLower "sideways" ≠ "asc" ∧ toLower "sideways" ≠ "desc" ∧
    (sampleBuilder.orderBy "name" "sideways").error =
      some (Exception.RuntimeError Builder.orderDirectionMessage) ∧
    (Exception.RuntimeError Builder.orderDirectionMessage).isInvalidArgument = false := by
  decide

/-- C15, amended: for every builder and every direction that is not `"asc"` or `"desc"` up
to case, `orderBy` throws a `RuntimeError` (so not an invalid-argument, query or logic
error) with the message "Order direction must be "asc" or "desc", case is not important.",
the builder being as it was. -/
theorem orderBy_throws_runtime_error (b : Builder) (column d : String)
    (h1 : toLower d ≠ "asc") (h2 : toLower d ≠ "desc") :
    b.orderBy column d =
      Outcome.threw (Exception.RuntimeError Builder.orderDirectionMessage) b ∧
    (∀ e, (b.orderBy column d).error = some e →
      e = Exception.RuntimeError Builder.orderDirectionMessage ∧
        e.isInvalidArgument = false ∧ e.isQueryError = false) := by
  have h : b.orderBy column d =
      Outcome.threw (Exception.RuntimeError Builder.orderDirectionMessage) b := by
    simp [Builder.orderBy, h1, h2]
  refine ⟨h, ?_⟩
  intro e he
  rw [h] at he
  simp only [Outcome.error, Option.some.injEq] at he
  subst he
  exact ⟨rfl, rfl, rfl⟩

/-- C15, amended, at the direction `"up"`. -/
theorem orderBy_throws_runtime_error_witness :
    sampleBuilder.orderBy "votes" "up" =
      Outcome.threw (Exception.RuntimeError Builder.orderDirectionMessage) sampleBuilder :=
  (orderBy_throws_runtime_error sampleBuilder "votes" "up" (by decide) (by decide)).1

/-- C16: `limit(v)` (and `take(v)`, which is `limit(v)`) with `v < 0` never writes the limit:
the builder is left as it was, the call stopping at the failed `Q_ASSERT` when assertions
are compiled in and returning otherwise; with `v >= 0` it returns with the limit set to
`v`; in every case no member other than the limit changes. -/
theorem limit_rejects_negative (assertsEnabled : Bool) (b : Builder) (v : Int) :
    (v < 0 → (Builder.limit assertsEnabled b v).state = b ∧
      (Builder.limit assertsEnabled b v).failed = assertsEnabled) ∧
    (0 ≤ v → Builder.limit assertsEnabled b v =
      Asserted.returned (Builder.mk { b.core with m_limit := v })) ∧
    Builder.take assertsEnabled b v = Builder.limit assertsEnabled b v ∧
    (Builder.limit assertsEnabled b v).state = Builder.mk { b.core with
      m_limit := (Builder.limit assertsEnabled b v).state.m_limit } := by
  obtain ⟨core⟩ := b
  by_cases hv : 0 ≤ v
  · have hn : ¬ v < 0 := by omega
    simp [Builder.limit, Builder.take, hv, hn, Asserted.state, Builder.m_limit,
      Builder.core]
  · have hn : v < 0 := by omega
    cases assertsEnabled <;>
      simp [Builder.limit, Builder.take, hv, hn, Asserted.state, Asserted.failed,
        Builder.m_limit, Builder.core]

/-- C16 at concrete values: `limit(-1)` leaves the limit of a builder that has limit 10 at
10, in both kinds of build, and `limit(25)` sets it. -/
theorem limit_rejects_negative_witness :
    (Builder.limit true (Builder.limit true sampleBuilder 10).state (-1)).state.m_limit = 10 ∧
    (Builder.limit false (Builder.limit true sampleBuilder 10).state (-1)).state.m_limit =
      10 ∧
    (Builder.limit true sampleBuilder 25).state.m_limit = 25 := by
  have h1 := (limit_rejects_negative true (Builder.limit true sampleBuilder 10).state
    (-1)).1 (by decide)
  have h2 := (limit_rejects_negative false (Builder.limit true sampleBuilder 10).state
    (-1)).1 (by decide)
  have h3 := (limit_rejects_negative true sampleBuilder 25).2.1 (by decide)
  rw [h1.1, h2.1, h3]
  exact ⟨by decide, by decide, by decide⟩

/-- C17, as stated, fails: in a build that compiles `Q_ASSERT` in, `offset(-5)` does not
complete; it stops at the failed assertion `Q_ASSERT(value >= 0)` with the offset not
written. -/
theorem offset_negative_fails_assertion :
    (Builder.offset true sampleBuilder (-5)).failed = true ∧
    (Builder.offset true sampleBuilder (-5)).state.m_offset = sampleBuilder.m_offset ∧
    (Builder.skip true sampleBuilder (-5)).failed = true := by
  decide

/-- C17, amended: in a build without assertions `offset(v)` (and `skip(v)`, which is
`offset(v)`) returns with the offset set to `max(0, v)` and nothing else changed, so a
negative `v` gives offset 0 whereas `limit(v)` leaves the limit as it was; in a build with
assertions `offset(v)` does the same for `v >= 0` and stops at `Q_ASSERT(value >= 0)` for
`v < 0`, the builder being as it was. -/
theorem offset_clamps_unless_asserting (assertsEnabled : Bool) (b : Builder) (v : Int) :
    Builder.offset false b v =
      Asserted.returned (Builder.mk { b.core with m_offset := max 0 v }) ∧
    (0 ≤ v → Builder.offset assertsEnabled b v =
      Asserted.returned (Builder.mk { b.core with m_offset := max 0 v })) ∧
    (v < 0 → Builder.offset true b v = Asserted.assertFailed b) ∧
    (v < 0 → (Builder.offset false b v).state.m_offset = 0 ∧
      (Builder.limit false b v).state.m_limit = b.m_limit) ∧
    Builder.skip assertsEnabled b v = Builder.offset assertsEnabled b v := by
  refine ⟨by simp [Builder.offset], ?_, ?_, ?_, rfl⟩
  · intro hv
    simp [Builder.offset, hv]
  · intro hv
    have hn : ¬ 0 ≤ v := by omega
    simp [Builder.offset, hn]
  · intro hv
    have hn : ¬ 0 ≤ v := by omega
    have hm : max 0 v = 0 := max_eq_left (by omega)
    simp [Builder.offset, Builder.limit, hn, hm, Asserted.state, Builder.m_offset,
      Builder.m_limit, Builder.core]

/-- C17, amended, at `v = -5` and `v = 30`. -/
theorem offset_clamps_unless_asserting_witness :
    (Builder.offset false sampleBuilder (-5)).state.m_offset = 0 ∧
    (Builder.offset true sampleBuilder (-5)).failed = true ∧
    (Builder.offset true sampleBuilder 30).state.m_offset = 30 := by
  have h := offset_clamps_unless_asserting true sampleBuilder (-5)
  have h30 := (offset_clamps_unless_asserting true sampleBuilder 30).2.1 (by decide)
  refine ⟨(h.2.2.2.1 (by decide)).1, ?_, ?_⟩
  · rw [h.2.2.1 (by decide)]; rfl
  · rw [h30]; decide

/-- C18: `select(cs)` returns the builder with the column list exactly `cs`, the SELECT
bucket empty, every other bucket as it was (the store still holding its eight buckets) and
every member other than the column list and the store unchanged; `addSelect(cs)` returns
the builder with `cs` appended after the existing columns and nothing else changed, no
bucket in particular. -/
theorem select_replaces_addSelect_appends (b : Builder) (cs : List String) :
    (∃ b1, b.select cs = Outcome.returned b1 ∧
      b1.m_columns = cs ∧
      b1.m_bindings.value BindingType.SELECT = [] ∧
      (∀ t, t ≠ BindingType.SELECT → b1.m_bindings.value t = b.m_bindings.value t) ∧
      (b.m_bindings.Complete → b1.m_bindings.Complete) ∧
      b1 = Builder.mk { b.core with m_columns := cs, m_bindings := b1.m_bindings }) ∧
    b.addSelect cs =
      Outcome.returned (Builder.mk { b.core with m_columns := b.m_columns ++ cs }) ∧
    (b.addSelect cs).state.m_bindings = b.m_bindings := by
  refine ⟨⟨_, rfl, ?_, ?_, ?_, ?_, ?_⟩, rfl, rfl⟩
  · show [] ++ cs = cs
    rfl
  · show BindingsMap.value (BindingsMap.clearAt b.m_bindings BindingType.SELECT)
      BindingType.SELECT = []
    rw [BindingsMap.value_clearAt, if_pos rfl]
  · intro t ht
    show BindingsMap.value (BindingsMap.clearAt b.m_bindings BindingType.SELECT) t = _
    rw [BindingsMap.value_clearAt, if_neg (fun e => ht e.symm)]
  · intro hcomp
    exact BindingsMap.complete_clearAt _ hcomp _
      ((BindingsMap.contains_of_complete _ hcomp _).2 (by decide))
  · rfl

/-- C18 at a concrete builder that has a column, a SELECT binding and a WHERE binding. -/
theorem select_replaces_addSelect_appends_witness :
    ((((sampleBuilder.addSelect ["id"]).andThen
        (fun q => q.addBinding (QVariant.int 7) BindingType.SELECT)).andThen
        (fun q => q.where_ "a" "=" (QVariant.int 1) "and")).andThen
        (fun q => q.select ["name", "email"])).state.m_columns = ["name", "email"] ∧
    ((((sampleBuilder.addSelect ["id"]).andThen
        (fun q => q.addBinding (QVariant.int 7) BindingType.SELECT)).andThen
        (fun q => q.where_ "a" "=" (QVariant.int 1) "and")).andThen
        (fun q => q.select ["name", "email"])).state.getBindings = [QVariant.int 1] ∧
    (((sampleBuilder.addSelect ["id"]).andThen
        (fun q => q.addBinding (QVariant.int 7) BindingType.SELECT)).state.m_bindings.Complete →
      (((sampleBuilder.addSelect ["id"]).andThen
        (fun q => q.addBinding (QVariant.int 7) BindingType.SELECT)).state.select
          ["name"]).state.m_bindings.Complete) := by
  refine ⟨by decide, by decide, ?_⟩
  intro hcomp
  obtain ⟨b1, hb, _, _, _, hc, _⟩ := (select_replaces_addSelect_appends
    ((sampleBuilder.addSelect ["id"]).andThen
      (fun q => q.addBinding (QVariant.int 7) BindingType.SELECT)).state ["name"]).1
  rw [hb]
  exact hc hcomp

/-- C19: on a builder whose store has its ORDER bucket, `reorder()` returns the builder with
the order list and the ORDER bucket empty, every other bucket as it was, the same buckets
in the store, and every member other than the order list and the store (WHERE, HAVING,
group and join lists, columns, from, limit, offset, lock) unchanged. -/
theorem reorder_clears_only_order (b : Builder)
    (_ho : b.m_bindings.contains BindingType.ORDER = true) :
    ∃ b1, b.reorder = Outcome.returned b1 ∧
      b1.m_orders = [] ∧
      b1.m_bindings.value BindingType.ORDER = [] ∧
      (∀ t, t ≠ BindingType.ORDER → b1.m_bindings.value t = b.m_bindings.value t) ∧
      b1.m_bindings.keys = b.m_bindings.keys ∧
      b1 = Builder.mk { b.core with m_orders := [], m_bindings := b1.m_bindings } := by
  refine ⟨_, rfl, rfl, ?_, ?_, ?_, rfl⟩
  · show BindingsMap.value (BindingsMap.clearFound b.m_bindings BindingType.ORDER)
      BindingType.ORDER = []
    rw [BindingsMap.value_clearFound, if_pos rfl]
  · intro t ht
    show BindingsMap.value (BindingsMap.clearFound b.m_bindings BindingType.ORDER) t = _
    rw [BindingsMap.value_clearFound, if_neg (fun e => ht e.symm)]
  · exact BindingsMap.keys_clearFound _ _

/-- C19 at a concrete builder with two orderings, an ORDER binding and a WHERE binding. -/
theorem reorder_clears_only_order_witness :
    ∃ b1, (((((sampleBuilder.orderBy "name" "asc").andThen
        (fun q => q.orderBy "id" "desc")).andThen
        (fun q => q.addBinding (QVariant.int 3) BindingType.ORDER)).andThen
        (fun q => q.where_ "a" "=" (QVariant.int 1) "and")).state).reorder =
        Outcome.returned b1 ∧
      b1.m_orders = [] ∧ b1.m_bindings.value BindingType.ORDER = [] ∧
      b1.m_bindings.value BindingType.WHERE = [QVariant.int 1] := by
  obtain ⟨b1, hb, ho, hv, hother, _⟩ := reorder_clears_only_order
    ((((sampleBuilder.orderBy "name" "asc").andThen
        (fun q => q.orderBy "id" "desc")).andThen
        (fun q => q.addBinding (QVariant.int 3) BindingType.ORDER)).andThen
        (fun q => q.where_ "a" "=" (QVariant.int 1) "and")).state (by decide)
  refine ⟨b1, hb, ho, hv, ?_⟩
  rw [hother BindingType.WHERE (by decide)]
  decide

/-- C20: for every `compileSelect` that is a function of the builder state, `toSql()` leaves
the builder as it was and a second `toSql()` right after it returns the same text;
`getBindings()`, a const member, returns the same list before and after a `toSql()`, and
`toSql()` returns the same text whether or not `getBindings()` was read in between: both
are repeatable reads of the builder state. -/
theorem toSql_and_getBindings_are_repeatable (compileSelect : Builder → String)
    (b : Builder) :
    (Builder.toSql compileSelect b).2 = b ∧
    (Builder.toSql compileSelect (Builder.toSql compileSelect b).2).1 =
      (Builder.toSql compileSelect b).1 ∧
    (Builder.toSql compileSelect (Builder.toSql compileSelect b).2).2 = b ∧
    (Builder.toSql compileSelect b).2.getBindings = b.getBindings ∧
    (Builder.toSql compileSelect b).1 = compileSelect b :=
  ⟨rfl, rfl, rfl, rfl, rfl⟩

/-- C21, as stated, fails: the parent is on database `main`, the sub-query on database
`shop` with the from target `shop_orders`, which contains no `.`; still the from target is
left as it is, because it starts with the database name `shop`. -/
theorem prependDatabaseName_skips_table_starting_with_name :
    (sampleSubQuery "shop_orders").m_connection.databaseName ≠
      sampleParent.m_connection.databaseName ∧
    (sampleSubQuery "shop_orders").m_from = FromClause.table "shop_orders" ∧
    containsChar "shop_orders" '.' = false ∧
    (sampleParent.prependDatabaseNameIfCrossDatabaseQuery
      (sampleSubQuery "shop_orders")).map Builder.m_from =
        some (FromClause.table "shop_orders") ∧
    (sampleParent.createSub sampleCompileSelect (sampleSubQuery "shop_orders")).map
      (fun r => r.2.m_from) = some (FromClause.table "shop_orders") := by
  decide

/-- C21, amended: for a sub-query with the table name `t` as from target, on a connection
whose database name `D` differs from the parent's, `prependDatabaseNameIfCrossDatabaseQuery`
(and so `createSub`) sets the from target to `D.t` when `t` contains no `.` and does not
start with `D`, and leaves it unchanged when `t` contains a `.` or starts with `D`; when the
two database names are equal it always leaves it unchanged. -/
theorem prependDatabaseName_prefixes_unqualified_table (b query : Builder) (t : String)
    (hfrom : query.m_from = FromClause.table t) :
    ((query.m_connection.databaseName ≠ b.m_connection.databaseName ∧
        startsWith t query.m_connection.databaseName = false ∧ containsChar t '.' = false) →
      b.prependDatabaseNameIfCrossDatabaseQuery query =
        some (Builder.mk { query.core with
          m_from := FromClause.table (query.m_connection.databaseName ++ "." ++ t) })) ∧
    ((query.m_connection.databaseName ≠ b.m_connection.databaseName ∧
        (startsWith t query.m_connection.databaseName = true ∨ containsChar t '.' = true)) →
      b.prependDatabaseNameIfCrossDatabaseQuery query = some query) ∧
    (query.m_connection.databaseName = b.m_connection.databaseName →
      b.prependDatabaseNameIfCrossDatabaseQuery query = some query) := by
  refine ⟨?_, ?_, ?_⟩
  · rintro ⟨hne, hs, hc⟩
    have hempty : "".isEmpty = true := by decide
    simp [Builder.prependDatabaseNameIfCrossDatabaseQuery, hfrom, hne, hs, hc,
      Builder.from_, Outcome.state, hempty]
  · rintro ⟨hne, hs | hc⟩
    · simp [Builder.prependDatabaseNameIfCrossDatabaseQuery, hfrom, hs]
    · simp [Builder.prependDatabaseNameIfCrossDatabaseQuery, hfrom, hc]
  · intro he
    simp [Builder.prependDatabaseNameIfCrossDatabaseQuery, hfrom, he]

/-- C21, amended, at the from targets `orders` (prefixed) and `archive.orders` (already
qualified) of a sub-query on database `shop` under a parent on database `main`. -/
theorem prependDatabaseName_prefixes_unqualified_table_witness :
    (sampleParent.prependDatabaseNameIfCrossDatabaseQuery (sampleSubQuery "orders")).map
      Builder.m_from = some (FromClause.table "shop.orders") ∧
    (sampleParent.prependDatabaseNameIfCrossDatabaseQuery
      (sampleSubQuery "archive.orders")).map Builder.m_from =
        some (FromClause.table "archive.orders") := by
  have h1 := (prependDatabaseName_prefixes_unqualified_table sampleParent
    (sampleSubQuery "orders") "orders" rfl).1 ⟨by decide, by decide, by decide⟩
  have h2 := (prependDatabaseName_prefixes_unqualified_table sampleParent
    (sampleSubQuery "archive.orders") "archive.orders" rfl).2.1
    ⟨by decide, Or.inr (by decide)⟩
  rw [h1, h2]
  exact ⟨rfl, rfl⟩

/-- C22: `joinInternal(join)` on a parent whose store has its JOIN bucket returns the parent
with `join` appended at the end of the join list and `join.getBindings()` appended, in
order, at the end of the JOIN bucket, every other bucket, the WHERE list and every other
member unchanged; a join clause populated only by `on(first, op, second)` calls has no
binding, one populated by `where(first, op, value)` has exactly `[value]`, and so
`joinInternal(join, first, op, second, where)` adds nothing to the JOIN bucket for an ON
comparison and `[second]` for a where. -/
theorem joinInternal_appends_join_and_bindings (b : Builder) (j : Join)
    (hj : b.m_bindings.contains BindingType.JOIN = true) :
    (∃ b1, b.joinInternal j = Outcome.returned b1 ∧
      b1.m_joins = b.m_joins ++ [j] ∧
      b1.m_bindings.value BindingType.JOIN =
        b.m_bindings.value BindingType.JOIN ++ j.getBindings ∧
      (∀ t, t ≠ BindingType.JOIN → b1.m_bindings.value t = b.m_bindings.value t) ∧
      b1.m_wheres = b.m_wheres ∧
      (b.m_bindings.Complete → b1.m_bindings.Complete) ∧
      b1 = Builder.mk { b.core with m_joins := b1.m_joins, m_bindings := b1.m_bindings }) ∧
    (∀ (type table : String) (ons : List (String × String × String × String)),
      (ons.foldl (fun acc a => acc.on_ a.1 a.2.1 a.2.2.1 a.2.2.2)
        (b.newJoinClause type table)).getBindings = []) ∧
    (∀ (type table first comparison : String) (value : QVariant),
      ((b.newJoinClause type table).toBuilder.where_ first comparison value
        "and").state.getBindings = [value]) ∧
    (∀ (type table first comparison : String) (second : QVariant),
      (b.joinInternal_on (b.newJoinClause type table) first comparison second
        false).state.m_bindings.value BindingType.JOIN =
          b.m_bindings.value BindingType.JOIN ∧
      (b.joinInternal_on (b.newJoinClause type table) first comparison second
        true).state.m_bindings.value BindingType.JOIN =
          b.m_bindings.value BindingType.JOIN ++ [second]) := by
  refine ⟨?_, ?_, ?_, ?_⟩
  · refine ⟨_, Builder.addBindings_of_contains _ _ _ hj, rfl, ?_, ?_, rfl, ?_, rfl⟩
    · exact BindingsMap.value_appendTo_same _ _ _
    · intro t ht
      exact BindingsMap.value_appendTo_other _ _ _ _ ht
    · intro hcomp
      exact BindingsMap.complete_appendTo _ hcomp _ hj _
  · intro type table ons
    show Builder.getBindings _ = []
    unfold Builder.getBindings
    rw [ons_keep_bindings]
    rfl
  · intro type table first comparison value
    rfl
  · intro type table first comparison second
    have hj1 : (Builder.mk { b.core with m_joins := b.m_joins ++
        [(b.newJoinClause type table).on_ first comparison second.toQString
          "and"] }).m_bindings.contains BindingType.JOIN = true := hj
    have hj2 : ∀ q : Builder, (Builder.mk { b.core with m_joins := b.m_joins ++
        [{ (b.newJoinClause type table) with toBuilder := q }] }).m_bindings.contains
          BindingType.JOIN = true := fun _ => hj
    constructor
    · simp only [Builder.joinInternal_on, Bool.false_eq_true, if_false,
        Builder.joinInternal]
      rw [Builder.addBindings_of_contains _ _ _ hj1]
      show BindingsMap.value (BindingsMap.appendTo b.m_bindings BindingType.JOIN _) _ = _
      rw [BindingsMap.value_appendTo_same]
      have : ((b.newJoinClause type table).on_ first comparison second.toQString
          "and").getBindings = [] := rfl
      rw [this, List.append_nil]
    · have hwhere : (b.newJoinClause type table).toBuilder.where_ first comparison second
          "and" = Outcome.returned ((b.newJoinClause type table).toBuilder.where_ first
            comparison second "and").state := rfl
      simp only [Builder.joinInternal_on, if_true]
      rw [hwhere]
      simp only [Builder.joinInternal]
      rw [Builder.addBindings_of_contains _ _ _ (hj2 _)]
      show BindingsMap.value (BindingsMap.appendTo b.m_bindings BindingType.JOIN _) _ = _
      rw [BindingsMap.value_appendTo_same]
      rfl

/-- C22 at a concrete parent: an inner join on `contacts` with an ON comparison leaves the
JOIN bucket empty, one with `where("contacts.active", "=", 1)` puts `1` there. -/
theorem joinInternal_appends_join_and_bindings_witness :
    (sampleBuilder.joinInternal_on (sampleBuilder.newJoinClause "inner" "contacts")
      "users.id" "=" (QVariant.string "contacts.user_id")
      false).state.m_bindings.value BindingType.JOIN = [] ∧
    (sampleBuilder.joinInternal_on (sampleBuilder.newJoinClause "inner" "contacts")
      "contacts.active" "=" (QVariant.int 1)
      true).state.m_bindings.value BindingType.JOIN = [QVariant.int 1] ∧
    (sampleBuilder.joinInternal_on (sampleBuilder.newJoinClause "inner" "contacts")
      "contacts.active" "=" (QVariant.int 1) true).state.m_joins.length = 1 := by
  have h := (joinInternal_appends_join_and_bindings sampleBuilder
    (sampleBuilder.newJoinClause "inner" "contacts") (by decide)).2.2.2
  have h1 := (h "inner" "contacts" "users.id" "=" (QVariant.string "contacts.user_id")).1
  have h2 := (h "inner" "contacts" "contacts.active" "=" (QVariant.int 1)).2
  rw [h1, h2]
  exact ⟨by decide, by decide, by decide⟩

/-- C23: a `run` call that returns a value makes exactly one log call, which is
`logQueryForPretend(queryString, bindings)` when the connection is pretending and
`logQuery(result, elapsed)` otherwise; the elapsed time is measured (`elapsed` has a value)
and added to the elapsed counter exactly when the connection is not pretending and debug SQL
or elapsed counting is on, the counter being untouched otherwise; the value returned is what
an invocation of the callback returned. Hence statements issued one after the other on a
pretending connection, all returning, leave one pretend entry each, in issue order, with
the SQL and the bindings of the statement. -/
theorem run_logs_exactly_once_on_success {σ R : Type} (env : ConnectionEnv σ) :
    (∀ (c : DatabaseConnection σ) (queryString : String) (bindings : List QVariant)
      (callback : RunCallback σ R) (timerElapsed : Int) (r : R),
      (c.run env queryString bindings callback timerElapsed).result = Except.ok r →
        (c.run env queryString bindings callback timerElapsed).trace.filter
            RunEvent.isLog =
          [if c.m_pretending then RunEvent.logQueryForPretend queryString bindings
           else RunEvent.logQuery r
             (if !c.m_pretending && (c.m_debugSql || c.m_countingElapsed)
              then some timerElapsed else none)] ∧
        (c.run env queryString bindings callback timerElapsed).connection.m_elapsedCounter =
          (if !c.m_pretending && (c.m_debugSql || c.m_countingElapsed)
           then c.m_elapsedCounter + timerElapsed else c.m_elapsedCounter) ∧
        (c.run env queryString bindings callback timerElapsed).connection.m_pretending =
          c.m_pretending ∧
        (∃ s, (callback s queryString bindings).1 = Except.ok r)) ∧
    (∀ (c : DatabaseConnection σ) (stmts : List (Statement σ R)) (timerElapsed : Int),
      c.m_pretending = true →
      (∀ x ∈ DatabaseConnection.runEach env c stmts timerElapsed,
        ∃ r, x.result = Except.ok r) →
      DatabaseConnection.logCalls (DatabaseConnection.runEach env c stmts timerElapsed) =
        stmts.map (fun s => RunEvent.logQueryForPretend s.queryString s.bindings)) := by
  refine ⟨?_, ?_⟩
  · intro c queryString bindings callback timerElapsed r hok
    exact DatabaseConnection.run_ok_facts env c queryString bindings callback timerElapsed
      r hok
  · intro c stmts timerElapsed hp hall
    exact DatabaseConnection.logCalls_runEach_pretending env stmts c timerElapsed hp hall

/-- C23 at a concrete connection that counts elapsed time (one `logQuery` with the measured
7 ms, counter 0 to 7), and at a pretending connection issuing two statements. -/
theorem run_logs_exactly_once_on_success_witness :
    (sampleConnection.run sampleEnv "select 1" [QVariant.int 1] sampleFlakyCallback
      7).trace.filter RunEvent.isLog = [RunEvent.logQuery 1 (some 7)] ∧
    (sampleConnection.run sampleEnv "select 1" [QVariant.int 1] sampleFlakyCallback
      7).connection.m_elapsedCounter = 7 ∧
    DatabaseConnection.logCalls (DatabaseConnection.runEach sampleEnv
      { sampleConnection with m_pretending := true } sampleStatements 7) =
      [RunEvent.logQueryForPretend "select * from users where id = ?" [QVariant.int 1],
       RunEvent.logQueryForPretend "insert into users (name) values (?)"
         [QVariant.string "a"]] := by
  have h := run_logs_exactly_once_on_success (R := Nat) sampleEnv
  obtain ⟨hlog, hcount, _, _⟩ := h.1 sampleConnection "select 1" [QVariant.int 1]
    sampleFlakyCallback 7 1 rfl
  have hseq := h.2 { sampleConnection with m_pretending := true } sampleStatements 7 rfl
    (by
      intro x hx
      simp only [DatabaseConnection.runEach, sampleStatements, List.mem_cons,
        List.mem_singleton, List.not_mem_nil, or_false] at hx
      rcases hx with rfl | rfl
      · exact ⟨1, rfl⟩
      · exact ⟨1, rfl⟩)
  refine ⟨hlog.trans rfl, hcount.trans rfl, hseq.trans rfl⟩

/-- C24: for a non-empty batch of rows, `insert` hands to the connection the compiled SQL
and the bindings `cleanBindings` of the concatenation, in batch order, of each row's values
in ascending key order; when every row has the same keys `ks` and no value is an
Expression, there are `rows * |ks|` bindings and the one at position `i * |ks| + j` is row
`i`'s value for the `j`-th key. -/
theorem insert_binds_rows_in_key_order
    (compileInsert : Builder → List QVariantMap → String)
    (b : Builder) (rows : List QVariantMap) (hne : rows ≠ []) :
    b.insert compileInsert rows =
      some (compileInsert b rows,
        Builder.cleanBindings (rows.map QVariantMap.values).flatten) ∧
    (∀ ks : List String,
      (∀ row ∈ rows, QVariantMap.Ordered row ∧ QVariantMap.keys row = ks) →
      (∀ row ∈ rows, ∀ v ∈ QVariantMap.values row, v.canConvertExpression = false) →
      ∃ bindings, b.insert compileInsert rows = some (compileInsert b rows, bindings) ∧
        bindings.length = rows.length * ks.length ∧
        ∀ (i j : Nat) (hi : i < rows.length) (hj : j < ks.length),
          bindings[i * ks.length + j]? =
            some (QVariantMap.value (rows[i]) (ks[j]))) := by
  have hins : b.insert compileInsert rows =
      some (compileInsert b rows,
        Builder.cleanBindings (rows.map QVariantMap.values).flatten) := by
    cases rows with
    | nil => exact absurd rfl hne
    | cons r rs => simp [Builder.insert, flatValuesForInsert_eq]
  refine ⟨hins, ?_⟩
  intro ks hrows hnoexpr
  have hclean : Builder.cleanBindings (rows.map QVariantMap.values).flatten =
      (rows.map QVariantMap.values).flatten := by
    rw [Builder.cleanBindings_eq_filter]
    apply List.filter_eq_self.2
    intro v hv
    obtain ⟨l, hl, hvl⟩ := List.mem_flatten.1 hv
    obtain ⟨row, hrow, rfl⟩ := List.mem_map.1 hl
    simp [hnoexpr row hrow v hvl]
  have hlen : ∀ l ∈ rows.map QVariantMap.values, l.length = ks.length := by
    intro l hl
    obtain ⟨row, hrow, rfl⟩ := List.mem_map.1 hl
    rw [← (hrows row hrow).2]
    simp [QVariantMap.values, QVariantMap.keys]
  refine ⟨_, hins, ?_, ?_⟩
  · rw [hclean, length_flatten_blocks ks.length _ hlen, List.length_map]
  · intro i j hi hj
    rw [hclean, getElem?_flatten_blocks ks.length _ hlen i j (by simpa using hi) hj]
    have hrow := hrows (rows[i]) (List.getElem_mem _)
    have hjr : j < (rows[i]).length := by
      have := congrArg List.length hrow.2
      simp only [QVariantMap.keys, List.length_map] at this
      omega
    have hkey : ks[j] = ((rows[i])[j]).1 := by
      have h1 : (QVariantMap.keys (rows[i]))[j]? = ks[j]? := by rw [hrow.2]
      simp only [QVariantMap.keys, List.getElem?_map, List.getElem?_eq_getElem hjr,
        List.getElem?_eq_getElem hj, Option.map_some', Option.some.injEq] at h1
      exact h1.symm
    rw [hkey, QVariantMap.value_at_key _ (QVariantMap.nodup_of_ordered _ hrow.1) j hjr]
    simp [QVariantMap.values, List.getElem?_eq_getElem hjr]

/-- C24 at a batch of two rows over the keys `id` and `name`: four bindings, row by row,
the one at position `1 * 2 + 1` being the name of the second row. -/
theorem insert_binds_rows_in_key_order_witness :
    (sampleBuilder.insert (fun _ _ => "insert") sampleRows).map Prod.snd =
      some [QVariant.int 1, QVariant.string "a", QVariant.int 2, QVariant.string "b"] ∧
    (∃ bindings, sampleBuilder.insert (fun _ _ => "insert") sampleRows =
        some ("insert", bindings) ∧ bindings.length = 4 ∧
        bindings[1 * 2 + 1]? = some (QVariant.string "b")) := by
  have h := insert_binds_rows_in_key_order (fun _ _ => "insert") sampleBuilder sampleRows
    (by decide)
  refine ⟨?_, ?_⟩
  · rw [h.1]
    decide
  · obtain ⟨bindings, hb, hlen, hget⟩ := h.2 ["id", "name"]
      (by
        intro row hrow
        simp only [sampleRows, List.mem_cons, List.mem_singleton, List.not_mem_nil,
          or_false] at hrow
        rcases hrow with rfl | rfl <;>
          exact ⟨by
            simp only [QVariantMap.Ordered, QVariantMap.keys, List.map_cons, List.map_nil,
              List.pairwise_cons, List.mem_singleton, List.not_mem_nil, forall_eq,
              false_imp_iff, implies_true, List.Pairwise.nil, and_true,
              String.lt_iff_toList_lt]
            decide, rfl⟩)
      (by decide)
    exact ⟨bindings, hb, hlen, hget 1 1 (by decide) (by decide)⟩

/-- C25: `reorder(column, direction)` on a builder whose store has its ORDER bucket: with a
direction that is not `"asc"` or `"desc"` up to case it throws the direction error with the
order list and the ORDER bucket already emptied, so a builder that had orderings has lost
them; with a valid direction it returns with the order list exactly
`[(column, lower-cased direction)]`. -/
theorem reorder_by_clears_before_checking_direction (b : Builder) (column d : String)
    (_ho : b.m_bindings.contains BindingType.ORDER = true) :
    ((toLower d ≠ "asc" ∧ toLower d ≠ "desc") →
      b.reorder_by column d =
        Outcome.threw (Exception.RuntimeError Builder.orderDirectionMessage)
          (Builder.mk { b.core with
            m_orders := [],
            m_bindings := b.m_bindings.clearFound BindingType.ORDER }) ∧
      (b.reorder_by column d).state.m_orders = [] ∧
      (b.reorder_by column d).state.m_bindings.value BindingType.ORDER = [] ∧
      (b.m_orders ≠ [] → (b.reorder_by column d).state.m_orders ≠ b.m_orders)) ∧
    ((toLower d = "asc" ∨ toLower d = "desc") →
      ∃ b1, b.reorder_by column d = Outcome.returned b1 ∧
        b1.m_orders = [{ column := column, direction := toLower d }] ∧
        b1.m_bindings.value BindingType.ORDER = []) := by
  have hv : BindingsMap.value (BindingsMap.clearFound b.m_bindings BindingType.ORDER)
      BindingType.ORDER = [] := by
    rw [BindingsMap.value_clearFound, if_pos rfl]
  refine ⟨?_, ?_⟩
  · rintro ⟨h1, h2⟩
    have h : b.reorder_by column d =
        Outcome.threw (Exception.RuntimeError Builder.orderDirectionMessage)
          (Builder.mk { b.core with
            m_orders := [],
            m_bindings := b.m_bindings.clearFound BindingType.ORDER }) := by
      simp [Builder.reorder_by, Builder.reorder, Outcome.andThen, Builder.orderBy, h1, h2]
    rw [h]
    refine ⟨rfl, rfl, hv, ?_⟩
    intro hne heq
    exact hne heq.symm
  · intro hd
    refine ⟨Builder.mk { b.core with
        m_orders := [{ column := column, direction := toLower d }],
        m_bindings := b.m_bindings.clearFound BindingType.ORDER }, ?_, rfl, hv⟩
    rcases hd with h | h <;>
      simp [Builder.reorder_by, Builder.reorder, Outcome.andThen, Builder.orderBy, h,
        Builder.m_orders, Builder.core]

/-- C25 at a builder ordered by `name`: `reorder("id", "sideways")` throws and the ordering
by `name` is gone; `reorder("id", "DESC")` leaves the single ordering `id desc`. -/
theorem reorder_by_clears_before_checking_direction_witness :
    ((sampleBuilder.orderBy "name" "asc").state.reorder_by "id" "sideways").error =
      some (Exception.RuntimeError Builder.orderDirectionMessage) ∧
    ((sampleBuilder.orderBy "name" "asc").state.reorder_by "id" "sideways").state.m_orders =
      [] ∧
    ((sampleBuilder.orderBy "name" "asc").state.reorder_by "id" "DESC").state.m_orders =
      [{ column := "id", direction := "desc" }] := by
  have h := reorder_by_clears_before_checking_direction
    (sampleBuilder.orderBy "name" "asc").state "id" "sideways" (by decide)
  have h1 := h.1 ⟨by decide, by decide⟩
  obtain ⟨b1, hb1, ho1, _⟩ := (reorder_by_clears_before_checking_direction
    (sampleBuilder.orderBy "name" "asc").state "id" "DESC" (by decide)).2
    (Or.inr (by decide))
  refine ⟨?_, h1.2.1, ?_⟩
  · rw [h1.1]; rfl
  · rw [hb1]
    exact ho1.trans (by decide)

/-- C26: a `run` call that ends by throwing (inside a transaction, with an error that is not
a lost connection, after a failed retry, or with any other exception of the callback) has
made no call of `logQuery` or `logQueryForPretend`, and the elapsed counter has the value
it had before the call. -/
theorem run_error_leaves_no_log_entry {σ R : Type} (env : ConnectionEnv σ)
    (c : DatabaseConnection σ) (queryString : String) (bindings : List QVariant)
    (callback : RunCallback σ R) (timerElapsed : Int) (e : Exception)
    (herr : (c.run env queryString bindings callback timerElapsed).result =
      Except.error e) :
    (c.run env queryString bindings callback timerElapsed).trace.filter RunEvent.isLog =
      [] ∧
    (c.run env queryString bindings callback timerElapsed).connection.m_elapsedCounter =
      c.m_elapsedCounter :=
  DatabaseConnection.run_error_facts env c queryString bindings callback timerElapsed e herr

/-- C26 at a concrete connection that counts elapsed time and whose callback keeps failing
after the retry. -/
theorem run_error_leaves_no_log_entry_witness :
    (sampleConnection.run sampleEnv "select 1" [] sampleDeadCallback 7).trace.filter
      RunEvent.isLog = [] ∧
    (sampleConnection.run sampleEnv "select 1" [] sampleDeadCallback
      7).connection.m_elapsedCounter = 0 :=
  run_error_leaves_no_log_entry sampleEnv sampleConnection "select 1" [] sampleDeadCallback 7
    (Exception.QueryError "server has gone away") rfl

/-- C27: `where(items, c)` on a builder whose store has its WHERE bucket, the items having
allowed operators: with no item it returns the builder as it was; otherwise it returns the
builder with exactly one NESTED node with connector `c` appended to the WHERE list, whose
child holds one BASIC node per item, in order, the node of an item carrying the item's own
connector when that is not empty and `c` otherwise, and with the values of the items
appended in order to the WHERE bucket, every other bucket and member unchanged;
`orWhere(items)` is `where(items, "or")`. -/
theorem where_items_nests_basic_nodes (b : Builder) (items : List WhereItem) (c : String)
    (_hops : ∀ it ∈ items, b.invalidOperator it.comparison = false)
    (hw : b.m_bindings.contains BindingType.WHERE = true) :
    (items = [] → b.where_items items c = Outcome.returned b) ∧
    (items ≠ [] → ∃ (child b1 : Builder), b.where_items items c = Outcome.returned b1 ∧
      b1.m_wheres = b.m_wheres ++
        [{ column := "", value := QVariant.invalid, comparison := "=",
           condition := c, type := WhereType.NESTED, nestedQuery := some child,
           values := [], columnTwo := "" }] ∧
      child.m_wheres = items.map (fun it =>
        { column := it.column, value := it.value, comparison := it.comparison,
          condition := if it.condition.isEmpty then c else it.condition,
          type := WhereType.BASIC, nestedQuery := none, values := [], columnTwo := "" }) ∧
      b1.m_bindings.value BindingType.WHERE =
        b.m_bindings.value BindingType.WHERE ++ items.map (fun it => it.value) ∧
      (∀ t, t ≠ BindingType.WHERE → b1.m_bindings.value t = b.m_bindings.value t) ∧
      b1 = Builder.mk { b.core with m_wheres := b1.m_wheres, m_bindings := b1.m_bindings }) ∧
    b.orWhere_items items = b.where_items items "or" := by
  refine ⟨?_, ?_, rfl⟩
  · rintro rfl
    rfl
  · intro hne
    obtain ⟨q1, h1, hw1, hv1, _⟩ := Builder.items_loop c items b.forNestedWhere
      (Builder.inSync_forNestedWhere b).1
    have hlen : 0 < q1.m_wheres.length := by
      rw [hw1]
      cases items with
      | nil => exact absurd rfl hne
      | cons it rest => simp
    obtain ⟨b1, hb1, hwh, hv, hother, hrest⟩ :=
      Builder.addNestedWhereQuery_of_wheres b q1 c hlen hw
    refine ⟨q1, b1, ?_, hwh, ?_, ?_, hother, hrest⟩
    · simp only [Builder.where_items, Builder.addArrayOfWheres, Builder.where_callback, h1]
      exact hb1
    · rw [hw1]
      show [] ++ _ = _
      rfl
    · rw [hv, hv1]
      show _ ++ ([] ++ _) = _
      rfl

/-- C27 at two items, the second with its own connector `or`, under the connector `and`. -/
theorem where_items_nests_basic_nodes_witness :
    ∃ (child b1 : Builder), sampleBuilder.where_items
        [{ column := "votes", value := QVariant.int 100, comparison := ">",
           condition := "" },
         { column := "name", value := QVariant.string "x", comparison := "like",
           condition := "or" }] "and" = Outcome.returned b1 ∧
      b1.m_wheres.map (fun n => (n.type, n.condition)) = [(WhereType.NESTED, "and")] ∧
      child.m_wheres.map (fun n => (n.type, n.column, n.condition)) =
        [(WhereType.BASIC, "votes", "and"), (WhereType.BASIC, "name", "or")] ∧
      b1.m_bindings.value BindingType.WHERE = [QVariant.int 100, QVariant.string "x"] := by
  obtain ⟨child, b1, hb, hwh, hchild, hv, _⟩ := (where_items_nests_basic_nodes sampleBuilder
    [{ column := "votes", value := QVariant.int 100, comparison := ">", condition := "" },
     { column := "name", value := QVariant.string "x", comparison := "like",
       condition := "or" }] "and" (by decide) (by decide)).2.1 (by decide)
  refine ⟨child, b1, hb, ?_, ?_, ?_⟩
  · rw [hwh]; rfl
  · rw [hchild]; decide
  · rw [hv]; decide

/-- C28: in a build with the MySQL ping, `pingDatabase` returns (it does not throw), and it
returns true if and only if the connection is open, the `MYSQL *` handle is not null and
`mysql_ping` returned 0 or the error number is `CR_COMMANDS_OUT_OF_SYNC`; when it returns
false it has logged the disconnect, closed the connection and called `resetTransactions`,
when it returns true it has done neither of the last two and the connection stays open;
and the "Unknown behavior" branch of the ping decision is taken for no handle, ping result
and error number. -/
theorem pingDatabase_true_iff_alive (d : MySqlDriverState) :
    (∃ o, MySqlConnection.pingDatabase true d = Except.ok o) ∧
    (∀ o, MySqlConnection.pingDatabase true d = Except.ok o →
      (o.result = true ↔
        (d.isOpen = true ∧ (MySqlConnection.getMysqlHandle d).isSome = true ∧
          (d.ping = 0 ∨ d.errNo = CR_COMMANDS_OUT_OF_SYNC))) ∧
      (o.result = false →
        o.events =
          [PingEvent.logDisconnected, PingEvent.close, PingEvent.resetTransactions] ∧
        o.isOpenAfter = false) ∧
      (o.result = true →
        PingEvent.close ∉ o.events ∧ PingEvent.resetTransactions ∉ o.events ∧
          PingEvent.logConnected ∈ o.events ∧ o.isOpenAfter = true)) ∧
    (MySqlConnection.mysqlPing d).2.1 ≠ PingBranch.unknownBehavior := by
  obtain ⟨isOpen, typeName, handle, ping, errNo⟩ := d
  refine ⟨?_, ?_, ?_⟩
  · simp only [MySqlConnection.pingDatabase, if_true]
    split_ifs <;> exact ⟨_, rfl⟩
  · intro o ho
    cases isOpen
    · simp only [MySqlConnection.pingDatabase, if_true, Bool.false_eq_true, if_false,
        Except.ok.injEq] at ho
      subst ho
      simp
    · by_cases ht : typeName = "MYSQL*"
      · cases handle with
        | none =>
          simp [MySqlConnection.pingDatabase, MySqlConnection.mysqlPing,
            MySqlConnection.getMysqlHandle, ht] at ho
          subst ho
          simp [MySqlConnection.getMysqlHandle, ht]
        | some h =>
          by_cases hp : ping = 0
          · simp [MySqlConnection.pingDatabase, MySqlConnection.mysqlPing,
              MySqlConnection.getMysqlHandle, ht, hp] at ho
            subst ho
            simp [MySqlConnection.getMysqlHandle, ht, hp]
          · by_cases he : errNo = CR_COMMANDS_OUT_OF_SYNC
            · simp [MySqlConnection.pingDatabase, MySqlConnection.mysqlPing,
                MySqlConnection.getMysqlHandle, ht, hp, he] at ho
              subst ho
              simp [MySqlConnection.getMysqlHandle, ht, hp, he]
            · simp [MySqlConnection.pingDatabase, MySqlConnection.mysqlPing,
                MySqlConnection.getMysqlHandle, ht, hp, he] at ho
              subst ho
              simp [MySqlConnection.getMysqlHandle, ht, hp, he]
      · simp [MySqlConnection.pingDatabase, MySqlConnection.mysqlPing,
          MySqlConnection.getMysqlHandle, ht] at ho
        subst ho
        simp [MySqlConnection.getMysqlHandle, ht]
  · simp only [MySqlConnection.mysqlPing]
    split
    · simp
    · split_ifs <;> simp_all

/-- C28 at concrete driver states: a connection whose ping succeeds, one whose ping fails
with error 2006, and one whose ping fails with `CR_COMMANDS_OUT_OF_SYNC`. -/
theorem pingDatabase_true_iff_alive_witness :
    MySqlConnection.pingDatabase true sampleAliveDriver =
      Except.ok { result := true, events := [PingEvent.logConnected], isOpenAfter := true } ∧
    MySqlConnection.pingDatabase true sampleGoneDriver =
      Except.ok { result := false,
                  events := [PingEvent.logDisconnected, PingEvent.close,
                    PingEvent.resetTransactions],
                  isOpenAfter := false } ∧
    (∀ o, MySqlConnection.pingDatabase true
        { sampleGoneDriver with errNo := CR_COMMANDS_OUT_OF_SYNC } = Except.ok o →
      o.result = true) := by
  refine ⟨rfl, rfl, ?_⟩
  intro o ho
  exact ((pingDatabase_true_iff_alive
    { sampleGoneDriver with errNo := CR_COMMANDS_OUT_OF_SYNC }).2.1 o ho).1.2
    ⟨rfl, rfl, Or.inr rfl⟩

/-- C29: `get(cs)` runs the select on the builder's own columns when it has some and on
`cs` when it has none (the rest of the builder being the same), and when the select returns
without an error the builder after `get(cs)` is the builder before it, so its column list
is the one it had. -/
theorem get_restores_columns {R : Type} (compileSelect : Builder → String)
    (select : String → List QVariant → Except Exception R) (b : Builder)
    (cs : List String) :
    (b.m_columns ≠ [] →
      (b.get compileSelect select cs).1 = select (compileSelect b) b.getBindings) ∧
    (b.m_columns = [] →
      (b.get compileSelect select cs).1 =
        select (compileSelect (Builder.mk { b.core with m_columns := cs }))
          (Builder.mk { b.core with m_columns := cs }).getBindings) ∧
    (∀ r, (b.get compileSelect select cs).1 = Except.ok r →
      (b.get compileSelect select cs).2 = b ∧
        (b.get compileSelect select cs).2.m_columns = b.m_columns) := by
  obtain ⟨h1, h2⟩ := Builder.onceWithColumns_facts b cs
    (fun q => q.runSelect compileSelect select)
  refine ⟨?_, ?_, ?_⟩
  · intro hne
    have hemp : b.m_columns.isEmpty = false := by
      cases hc : b.m_columns with
      | nil => exact absurd hc hne
      | cons _ _ => rfl
    unfold Builder.get
    rw [h1, hemp]
    rfl
  · intro he
    have hemp : b.m_columns.isEmpty = true := by rw [he]; rfl
    unfold Builder.get
    rw [h1, hemp]
    rfl
  · intro r hr
    have h := h2 r hr
    have hb : (b.get compileSelect select cs).2 = b := by
      unfold Builder.get
      rw [h]
      obtain ⟨core⟩ := b
      cases hc : core.m_columns with
      | nil =>
        have hemp : (Builder.mk core).m_columns.isEmpty = true := by
          show core.m_columns.isEmpty = true
          rw [hc]; rfl
        rw [hemp]
        show Builder.mk { core with m_columns := core.m_columns } = Builder.mk core
        rfl
      | cons col cols =>
        have hemp : (Builder.mk core).m_columns.isEmpty = false := by
          show core.m_columns.isEmpty = false
          rw [hc]; rfl
        rw [hemp]
        show Builder.mk { core with m_columns := core.m_columns } = Builder.mk core
        rfl
    exact ⟨hb, by rw [hb]⟩

/-- C29 at a builder without columns (the select sees `id, name`, the builder has no
columns afterwards) and at one that selected `email` (the select sees `email`). -/
theorem get_restores_columns_witness :
    (sampleBuilder.get sampleCompileSelect sampleSelect ["id", "name"]).1 =
      Except.ok ("id, name", 0) ∧
    (sampleBuilder.get sampleCompileSelect sampleSelect ["id", "name"]).2.m_columns = [] ∧
    ((sampleBuilder.select ["email"]).state.get sampleCompileSelect sampleSelect
      ["id", "name"]).1 = Except.ok ("email", 0) := by
  have h := get_restores_columns sampleCompileSelect sampleSelect sampleBuilder
    ["id", "name"]
  have h2 := (get_restores_columns sampleCompileSelect sampleSelect
    (sampleBuilder.select ["email"]).state ["id", "name"]).1 (by decide)
  refine ⟨(h.2.1 rfl).trans rfl, ?_, h2.trans rfl⟩
  exact (h.2.2 ("id, name", 0) ((h.2.1 rfl).trans rfl)).2

/-- C30, as stated, fails: in a build that compiles `Q_ASSERT` in, `forPage(0, 10)` does not
set the limit to 10 and the offset to 0; it stops at the failed assertion of
`offset(-10)`, limit and offset being what they were. -/
theorem forPage_page_zero_fails_assertion :
    (Builder.forPage true sampleBuilder 0 10).failed = true ∧
    (Builder.forPage true sampleBuilder 0 10).state.m_limit = sampleBuilder.m_limit ∧
    (Builder.forPage true sampleBuilder 0 10).state.m_limit ≠ 10 ∧
    (Builder.forPage true sampleBuilder 0 10).state.m_offset = sampleBuilder.m_offset := by
  decide

/-- C30, amended: for `page` and `perPage` 32-bit integers with `perPage >= 0` and
`(page - 1) * perPage` representable: in a build without assertions `forPage` returns with
the limit `perPage` and the offset `max(0, (page - 1) * perPage)`, which is
`(page - 1) * perPage` when `page >= 1` and 0 when `page <= 0`; in a build with assertions
it returns the same when `page >= 1` or `perPage = 0`, and when `page <= 0` and
`perPage > 0` it stops at the failed `Q_ASSERT` of `offset` with the builder as it was;
so `forPage` never writes a negative offset or limit. -/
theorem forPage_sets_limit_and_offset (assertsEnabled : Bool) (b : Builder)
    (page perPage : Int)
    (hpage : IsInt32 page) (hper : IsInt32 perPage) (hnonneg : 0 ≤ perPage)
    (hprod : IsInt32 ((page - 1) * perPage)) :
    Builder.forPage false b page perPage =
      Asserted.returned (Builder.mk { b.core with
        m_offset := max 0 ((page - 1) * perPage), m_limit := perPage }) ∧
    ((1 ≤ page ∨ perPage = 0) →
      Builder.forPage assertsEnabled b page perPage =
        Asserted.returned (Builder.mk { b.core with
          m_offset := (page - 1) * perPage, m_limit := perPage })) ∧
    ((page ≤ 0 ∧ 0 < perPage) →
      Builder.forPage true b page perPage = Asserted.assertFailed b ∧
      (Builder.forPage false b page perPage).state.m_offset = 0) := by
  have hw : wrapInt32 (wrapInt32 (page - 1) * perPage) = (page - 1) * perPage := by
    by_cases h0 : perPage = 0
    · subst h0
      simp [wrapInt32]
    · have hp1 : IsInt32 (page - 1) := by
        unfold IsInt32 at *
        constructor
        · by_contra hlt
          have h1 : page - 1 ≤ -2147483649 := by omega
          have h2 : 1 ≤ perPage := by omega
          have h3 : (page - 1) * perPage ≤ -2147483649 * perPage := by
            exact Int.mul_le_mul_of_nonneg_right h1 (by omega)
          omega
        · omega
      rw [wrapInt32_of_isInt32 _ hp1, wrapInt32_of_isInt32 _ hprod]
  obtain ⟨core⟩ := b
  refine ⟨?_, ?_, ?_⟩
  · simp [Builder.forPage, hw, Builder.offset, Builder.limit, Asserted.andThen, hnonneg,
      Builder.core]
  · intro h
    have hoff : 0 ≤ (page - 1) * perPage := by
      rcases h with h | h
      · exact Int.mul_nonneg (by omega) hnonneg
      · subst h; simp
    have hmax : max 0 ((page - 1) * perPage) = (page - 1) * perPage := max_eq_right hoff
    simp [Builder.forPage, hw, Builder.offset, Builder.limit, Asserted.andThen, hnonneg,
      hoff, hmax, Builder.core]
  · rintro ⟨hp, hpp⟩
    have hneg : (page - 1) * perPage < 0 := by
      have : page - 1 ≤ -1 := by omega
      have h3 : (page - 1) * perPage ≤ -1 * perPage :=
        Int.mul_le_mul_of_nonneg_right this (by omega)
      omega
    have hnot : ¬ 0 ≤ (page - 1) * perPage := by omega
    have hmax : max 0 ((page - 1) * perPage) = 0 := max_eq_left (by omega)
    refine ⟨?_, ?_⟩
    · simp [Builder.forPage, hw, Builder.offset, Asserted.andThen, hnot]
    · simp [Builder.forPage, hw, Builder.offset, Builder.limit, Asserted.andThen, hnonneg,
        hmax, Asserted.state, Builder.m_offset, Builder.core]

/-- C30, amended, at page 3 of 10 per page (offset 20, limit 10) and at page 0 without
assertions (offset 0). -/
theorem forPage_sets_limit_and_offset_witness :
    (Builder.forPage true sampleBuilder 3 10).state.m_offset = 20 ∧
    (Builder.forPage true sampleBuilder 3 10).state.m_limit = 10 ∧
    (Builder.forPage false sampleBuilder 0 10).state.m_offset = 0 := by
  have h := (forPage_sets_limit_and_offset true sampleBuilder 3 10
    (by unfold IsInt32; decide) (by unfold IsInt32; decide) (by decide)
    (by unfold IsInt32; decide)).2.1 (Or.inl (by decide))
  have h0 := ((forPage_sets_limit_and_offset false sampleBuilder 0 10
    (by unfold IsInt32; decide) (by unfold IsInt32; decide) (by decide)
    (by unfold IsInt32; decide)).2.2 ⟨by decide, by decide⟩).2
  rw [h]
  exact ⟨by decide, by decide, h0⟩

end Orm
